import Mathlib

/-!
Verification of the tsi staging-optimizer core against its specification.

The Rust source is shallowly embedded: every `f64` quantity (the unit
wrapper types `Mass`, `Velocity`, `Force`, `Isp`, `Ratio`, `Time` are
transparent newtypes over `f64`) is modelled as a real number, fallible
functions return `Except`, and the `loop`s of the analytical optimizer are
modelled with explicit fuel (the Rust loops carry no iteration bound;
exhausted fuel is reported as an `infeasible` error, which is conservative
for every property proved here).  Wall-clock fields (`runtime`) and progress
output are omitted: no claim mentions them.
-/

namespace Tsi

noncomputable section

/-! ## Physics kernel (src/physics) -/

/-- Standard gravity, `src/physics/mod.rs` `pub const G0: f64 = 9.80665`. -/
def G0 : ℝ := 9.80665

/-- `src/physics/tsiolkovsky.rs::delta_v`: `isp × g₀ × ln(mass_ratio)`. -/
noncomputable def delta_v (isp mass_ratio : ℝ) : ℝ :=
  isp * G0 * Real.log mass_ratio

/-- `src/physics/tsiolkovsky.rs::required_mass_ratio`: `exp(dv / (isp × g₀))`. -/
noncomputable def required_mass_ratio (dv isp : ℝ) : ℝ :=
  Real.exp (dv / (isp * G0))

/-- `src/physics/thrust.rs::twr`: `thrust / (mass × gravity)`. -/
def twr (thrust mass gravity : ℝ) : ℝ :=
  thrust / (mass * gravity)

/-! ## Engine record (src/engine/engine.rs) -/

/-- An engine record.  `propellant` (a tag never read by the optimizer core)
is omitted; `name` is kept because the brute-force refinement phase
deduplicates engine alternatives by name. -/
structure Engine where
  name : String
  thrust_sl : ℝ
  thrust_vac : ℝ
  isp_sl : ℝ
  isp_vac : ℝ
  dry_mass : ℝ

instance : Inhabited Engine := ⟨⟨"", 0, 0, 0, 0, 0⟩⟩

/-! ## Stage (src/stage/stage.rs) -/

structure Stage where
  engine : Engine
  engine_count : ℕ
  propellant_mass : ℝ
  structural_mass : ℝ

instance : Inhabited Stage := ⟨⟨default, 0, 0, 0⟩⟩

/-- `Stage::with_structural_ratio`: structural mass is `propellant × ratio`. -/
def Stage.with_structural_ratio (engine : Engine) (engine_count : ℕ)
    (propellant_mass structural_ratio : ℝ) : Stage :=
  ⟨engine, engine_count, propellant_mass, propellant_mass * structural_ratio⟩

def Stage.engine_mass (s : Stage) : ℝ := s.engine.dry_mass * s.engine_count

def Stage.dry_mass (s : Stage) : ℝ := s.structural_mass + s.engine_mass

def Stage.wet_mass (s : Stage) : ℝ := s.dry_mass + s.propellant_mass

def Stage.mass_ratio (s : Stage) : ℝ := s.wet_mass / s.dry_mass

def Stage.thrust_vac (s : Stage) : ℝ := s.engine.thrust_vac * s.engine_count

def Stage.thrust_sl (s : Stage) : ℝ := s.engine.thrust_sl * s.engine_count

def Stage.isp_vac (s : Stage) : ℝ := s.engine.isp_vac

noncomputable def Stage.delta_v (s : Stage) : ℝ :=
  Tsi.delta_v s.isp_vac s.mass_ratio

/-- `Stage::delta_v_with_payload`: the mass ratio becomes
`(wet + payload) / (dry + payload)`. -/
noncomputable def Stage.delta_v_with_payload (s : Stage) (payload : ℝ) : ℝ :=
  Tsi.delta_v s.isp_vac ((s.wet_mass + payload) / (s.dry_mass + payload))

def Stage.twr_vac_with_payload (s : Stage) (payload : ℝ) : ℝ :=
  twr s.thrust_vac (s.wet_mass + payload) G0

def Stage.twr_sl_with_payload (s : Stage) (payload : ℝ) : ℝ :=
  twr s.thrust_sl (s.wet_mass + payload) G0

/-! ## Rocket (src/stage/rocket.rs) -/

/-- Stages bottom-to-top (index 0 fires first) plus a payload.  `Rocket::new`
panics on an empty stage list; out-of-range stage indices panic in Rust and
are given the default stage here (every claim only touches in-range
indices of rockets the optimizers build, which are nonempty). -/
structure Rocket where
  stages : List Stage
  payload : ℝ

def Rocket.stage_count (r : Rocket) : ℕ := r.stages.length

/-- `Rocket::mass_above_stage`: payload plus wet mass of all stages above. -/
def Rocket.mass_above_stage (r : Rocket) (stage_index : ℕ) : ℝ :=
  r.payload + (((r.stages.drop (stage_index + 1)).map Stage.wet_mass).sum)

def Rocket.total_mass (r : Rocket) : ℝ :=
  r.payload + ((r.stages.map Stage.wet_mass).sum)

def Rocket.payload_fraction (r : Rocket) : ℝ := r.payload / r.total_mass

noncomputable def Rocket.stage_delta_v (r : Rocket) (stage_index : ℕ) : ℝ :=
  (r.stages.getD stage_index default).delta_v_with_payload (r.mass_above_stage stage_index)

noncomputable def Rocket.total_delta_v (r : Rocket) : ℝ :=
  ((List.range r.stages.length).map r.stage_delta_v).sum

def Rocket.liftoff_twr (r : Rocket) : ℝ :=
  twr r.stages.headI.thrust_sl r.total_mass G0

def Rocket.stage_twr (r : Rocket) (stage_index : ℕ) : ℝ :=
  (r.stages.getD stage_index default).twr_vac_with_payload (r.mass_above_stage stage_index)

/-- `TwrError` of src/stage/rocket.rs. -/
inductive TwrError where
  | insufficientLiftoff (twr required : ℝ)
  | insufficientStageTwr (stage : ℕ) (twr required : ℝ)

/-- The per-stage loop of `Rocket::validate_twr`: first index whose vacuum
TWR is below the minimum yields the error. -/
noncomputable def check_stage_twrs (r : Rocket) (min_twr : ℝ) :
    List ℕ → Except TwrError Unit
  | [] => .ok ()
  | i :: rest =>
    if r.stage_twr i < min_twr then
      .error (.insufficientStageTwr i (r.stage_twr i) min_twr)
    else check_stage_twrs r min_twr rest

/-- `Rocket::validate_twr(min_twr, require_liftoff)`: the liftoff check
(sea-level TWR of stage 0 against 1.0) runs first when `require_liftoff`;
then every stage (stage 0 included) is checked with vacuum thrust against
`min_twr`. -/
noncomputable def Rocket.validate_twr (r : Rocket) (min_twr : ℝ)
    (require_liftoff : Bool) : Except TwrError Unit :=
  if require_liftoff = true ∧ r.liftoff_twr < 1 then
    .error (.insufficientLiftoff r.liftoff_twr 1)
  else check_stage_twrs r min_twr (List.range r.stages.length)

/-! ## Constraints and Problem (src/optimizer/problem.rs) -/

inductive ConstraintError where
  | invalidLiftoffTwr (twr : ℝ)
  | invalidStageTwr (twr : ℝ)
  | zeroStages
  | invalidStructuralRatio (r : ℝ)

inductive ProblemError where
  | invalidPayload (m : ℝ)
  | invalidDeltaV (v : ℝ)
  | noEngines
  | invalidStageCount (requested max : ℕ)
  | constraint (e : ConstraintError)

structure Constraints where
  min_liftoff_twr : ℝ
  min_stage_twr : ℝ
  max_stages : ℕ
  structural_ratio : ℝ
  max_engines_per_stage : ℕ

/-- `Constraints::default()`. -/
def Constraints.default : Constraints := ⟨1.2, 0.5, 3, 0.08, 9⟩

/-- `Constraints::validate`. -/
def Constraints.validate (c : Constraints) : Except ConstraintError Unit :=
  if c.min_liftoff_twr < 1 then .error (.invalidLiftoffTwr c.min_liftoff_twr)
  else if c.min_stage_twr ≤ 0 then .error (.invalidStageTwr c.min_stage_twr)
  else if c.max_stages = 0 then .error .zeroStages
  else if c.structural_ratio ≤ 0 ∨ 1 ≤ c.structural_ratio then
    .error (.invalidStructuralRatio c.structural_ratio)
  else .ok ()

structure Problem where
  payload : ℝ
  target_delta_v : ℝ
  available_engines : List Engine
  constraints : Constraints
  stage_count : Option ℕ

/-- `Problem::is_valid`. -/
def Problem.is_valid (p : Problem) : Except ProblemError Unit :=
  if p.payload ≤ 0 then .error (.invalidPayload p.payload)
  else if p.target_delta_v ≤ 0 then .error (.invalidDeltaV p.target_delta_v)
  else if p.available_engines.isEmpty then .error .noEngines
  else
    match p.stage_count with
    | some count =>
      if count = 0 ∨ p.constraints.max_stages < count then
        .error (.invalidStageCount count p.constraints.max_stages)
      else (p.constraints.validate).mapError ProblemError.constraint
    | none => (p.constraints.validate).mapError ProblemError.constraint

/-- `Problem::is_single_engine`. -/
def Problem.is_single_engine (p : Problem) : Bool :=
  p.available_engines.length == 1

/-- `Problem::single_engine`. -/
def Problem.single_engine (p : Problem) : Option Engine :=
  if p.available_engines.length = 1 then p.available_engines.head? else none

/-! ## Optimizer interface types (src/optimizer/mod.rs, solution.rs) -/

/-- `OptimizeError`.  The Rust `reason` strings interpolate floating-point
values; here each carries only the static text of its message. -/
inductive OptimizeError where
  | invalidProblem (e : ProblemError)
  | infeasible (reason : String)
  | unsupported (reason : String)

def OptimizeError.isUnsupported : OptimizeError → Prop
  | .unsupported _ => True
  | _ => False

structure Solution where
  rocket : Rocket
  margin : ℝ
  iterations : ℕ
  optimizer_name : String

/-- `Solution::new` (src/optimizer/solution.rs): margin is achieved total
delta-v minus target. -/
def Solution.new (rocket : Rocket) (target_dv : ℝ) (iterations : ℕ) : Solution :=
  ⟨rocket, rocket.total_delta_v - target_dv, iterations, ""⟩

/-- Modelled from the spec: `Solution::with_metadata` is called by both
optimizers but its definition is not among the repository's files
(src/src/optimizer/solution.rs only holds `Solution::new`); per spec §3 a
Solution carries "the delta-v margin (achieved − target)", the iteration
count and the producing optimizer's name (the wall-clock runtime is
omitted here). -/
def Solution.with_metadata (rocket : Rocket) (target_dv : ℝ) (iterations : ℕ)
    (name : String) : Solution :=
  ⟨rocket, rocket.total_delta_v - target_dv, iterations, name⟩

/-- `Solution::meets_target`. -/
def Solution.meets_target (s : Solution) : Prop := 0 ≤ s.margin

/-! ## Analytical optimizer (src/optimizer/analytical.rs) -/

/-- `AnalyticalOptimizer::calculate_stage_propellant`. -/
def calculate_stage_propellant (target_dv_per_stage : ℝ) (engine : Engine)
    (engine_count : ℕ) (structural_ratio payload_above : ℝ) :
    Except OptimizeError ℝ :=
  let required_ratio := required_mass_ratio target_dv_per_stage engine.isp_vac
  if required_ratio < 1 then
    .error (.infeasible "Required mass ratio < 1.0 (impossible)")
  else
    let engine_mass := engine.dry_mass * engine_count
    let r := required_ratio
    let eps := structural_ratio
    let fixed_mass := engine_mass + payload_above
    let numerator := fixed_mass * (r - 1)
    let denominator := 1 + eps * (1 - r)
    if denominator ≤ 0 then
      .error (.infeasible "Structural ratio too high for required mass ratio")
    else
      let propellant_mass := numerator / denominator
      if propellant_mass ≤ 0 then
        .error (.infeasible "Calculated propellant mass is non-positive")
      else .ok propellant_mass

/-- The `for count in 1..=max_engines` loop of
`AnalyticalOptimizer::determine_engine_count`, over an explicit list of
candidate counts. -/
def determine_engine_count_from (engine : Engine)
    (propellant_mass structural_ratio payload_above min_twr : ℝ)
    (is_first_stage : Bool) : List ℕ → Except OptimizeError ℕ
  | [] => .error (.infeasible "Cannot achieve TWR with available engines")
  | count :: rest =>
    let stage := Stage.with_structural_ratio engine count propellant_mass structural_ratio
    let total_mass := stage.wet_mass + payload_above
    let thrust := if is_first_stage then stage.thrust_sl else stage.thrust_vac
    if thrust / (total_mass * G0) ≥ min_twr then .ok count
    else determine_engine_count_from engine propellant_mass structural_ratio
      payload_above min_twr is_first_stage rest

/-- `AnalyticalOptimizer::determine_engine_count`. -/
def determine_engine_count (engine : Engine)
    (propellant_mass structural_ratio payload_above min_twr : ℝ)
    (max_engines : ℕ) (is_first_stage : Bool) : Except OptimizeError ℕ :=
  determine_engine_count_from engine propellant_mass structural_ratio
    payload_above min_twr is_first_stage ((List.range max_engines).map (· + 1))

/-- The engine-count fixed-point `loop` of `AnalyticalOptimizer::optimize`
(one loop per stage): solve the propellant for the current count, find the
count needed for TWR, stop when they agree.  The Rust loop has no iteration
bound; `fuel` bounds it here, with exhaustion reported as infeasible. -/
def solve_stage_loop (dv_per_stage : ℝ) (engine : Engine)
    (structural_ratio payload_above min_twr : ℝ) (max_engines : ℕ)
    (is_first_stage : Bool) : ℕ → ℕ → Except OptimizeError (ℕ × ℝ)
  | 0, _ => .error (.infeasible "engine count search did not stabilize")
  | fuel + 1, count =>
    match calculate_stage_propellant dv_per_stage engine count structural_ratio
        payload_above with
    | .error e => .error e
    | .ok propellant =>
      match determine_engine_count engine propellant structural_ratio
          payload_above min_twr max_engines is_first_stage with
      | .error e => .error e
      | .ok needed =>
        if needed = count then .ok (count, propellant)
        else solve_stage_loop dv_per_stage engine structural_ratio payload_above
          min_twr max_engines is_first_stage fuel needed

/-- The body of `AnalyticalOptimizer::optimize` after the validity and shape
checks have passed: build the upper stage, the first stage, validate TWR,
and check the margin. -/
def analytical_solve (problem : Problem) (engine : Engine) :
    Except OptimizeError Solution :=
  let c := problem.constraints
  let target_with_margin := problem.target_delta_v * 1.02
  let dv_per_stage := target_with_margin / 2
  match solve_stage_loop dv_per_stage engine c.structural_ratio problem.payload
      c.min_stage_twr c.max_engines_per_stage false
      (c.max_engines_per_stage + 1) 1 with
  | .error e => .error e
  | .ok (stage2_count, stage2_propellant) =>
    let stage2 := Stage.with_structural_ratio engine stage2_count stage2_propellant
      c.structural_ratio
    let payload_above_stage1 := stage2.wet_mass + problem.payload
    match solve_stage_loop dv_per_stage engine c.structural_ratio
        payload_above_stage1 c.min_liftoff_twr c.max_engines_per_stage true
        (c.max_engines_per_stage + 1) 1 with
    | .error e => .error e
    | .ok (stage1_count, stage1_propellant) =>
      let stage1 := Stage.with_structural_ratio engine stage1_count
        stage1_propellant c.structural_ratio
      let rocket : Rocket := ⟨[stage1, stage2], problem.payload⟩
      match rocket.validate_twr c.min_stage_twr true with
      | .error _ => .error (.infeasible "TWR validation failed")
      | .ok _ =>
        let solution := Solution.with_metadata rocket problem.target_delta_v 1
          "Analytical"
        if solution.margin < -1 then
          .error (.infeasible "Solution delta-v is below target")
        else .ok solution

/-- `AnalyticalOptimizer::optimize`: validity check, then the two shape
checks (the `unwrap_or(2)` default for an unset stage count is kept), then
the closed-form solve.  `single_engine().unwrap()` is unreachable past the
single-engine check and is modelled with a default. -/
def AnalyticalOptimizer.optimize (problem : Problem) :
    Except OptimizeError Solution :=
  match problem.is_valid with
  | .error e => .error (.invalidProblem e)
  | .ok _ =>
    if problem.is_single_engine ≠ true then
      .error (.unsupported "Analytical optimizer requires single engine type")
    else if problem.stage_count.getD 2 ≠ 2 then
      .error (.unsupported "Analytical optimizer only supports 2 stages")
    else analytical_solve problem (problem.single_engine.getD default)

/-! ## Brute force optimizer (src/optimizer/brute_force.rs) -/

/-- The search parameters of `BruteForceOptimizer` (progress flag omitted). -/
structure BruteForceConfig where
  coarse_steps : ℕ
  fine_steps : ℕ
  min_propellant_kg : ℝ
  max_propellant_kg : ℝ
  prefer_vacuum_upper : Bool

/-- `BruteForceOptimizer::default()`. -/
def BruteForceConfig.default : BruteForceConfig := ⟨15, 10, 10000, 5000000, true⟩

/-- `BruteForceOptimizer::propellant_grid`: logarithmically spaced values. -/
def propellant_grid (steps : ℕ) (min_kg max_kg : ℝ) : List ℝ :=
  if steps = 1 then [(min_kg + max_kg) / 2]
  else
    let log_min := Real.log min_kg
    let log_max := Real.log max_kg
    let step := (log_max - log_min) / ((steps - 1 : ℕ) : ℝ)
    (List.range steps).map (fun i => Real.exp (log_min + step * i))

/-- `BruteForceOptimizer::sort_engines_by_preference`: first-stage candidates
ranked by descending sea-level thrust over dry mass, upper-stage candidates
by descending vacuum Isp (`sort_by` is a stable sort; `b.partial_cmp(&a)`
sorts descending). -/
def sort_engines_by_preference (cfg : BruteForceConfig) (engines : List Engine) :
    List Engine × List Engine :=
  if cfg.prefer_vacuum_upper ≠ true then (engines, engines)
  else
    (engines.mergeSort (fun a b =>
        decide (b.thrust_sl / b.dry_mass ≤ a.thrust_sl / a.dry_mass)),
     engines.mergeSort (fun a b => decide (b.isp_vac ≤ a.isp_vac)))

/-- `BruteForceOptimizer::check_stage_twr`. -/
def check_stage_twr (stage : Stage) (payload_above min_twr : ℝ)
    (use_sea_level : Bool) : Bool :=
  let total_mass := stage.wet_mass + payload_above
  let thrust := if use_sea_level then stage.thrust_sl else stage.thrust_vac
  decide (thrust / (total_mass * G0) ≥ min_twr)

/-- `StageSpec` of src/optimizer/brute_force.rs. -/
structure StageSpec where
  engine : Engine
  engine_count : ℕ
  propellant_kg : ℝ

/-- The stage a `StageSpec` builds under the problem's structural ratio. -/
def StageSpec.build (spec : StageSpec) (c : Constraints) : Stage :=
  Stage.with_structural_ratio spec.engine spec.engine_count spec.propellant_kg
    c.structural_ratio

/-- The loop of `BruteForceOptimizer::try_build_rocket` over
`stage_specs.iter().enumerate().rev()` (top stage first), accumulating the
mass each stage must carry; the produced list is in processing order
(top to bottom) and is reversed by the caller. -/
def try_build_stages (c : Constraints) :
    List (ℕ × StageSpec) → ℝ → Option (List Stage)
  | [], _ => some []
  | (i, spec) :: rest, mass_above =>
    let stage := spec.build c
    let min_twr := if i = 0 then c.min_liftoff_twr else c.min_stage_twr
    if check_stage_twr stage mass_above min_twr (i == 0) then
      (try_build_stages c rest (mass_above + stage.wet_mass)).map
        (fun stages => stage :: stages)
    else none

/-- `BruteForceOptimizer::try_build_rocket`. -/
def try_build_rocket (stage_specs : List StageSpec) (payload : ℝ)
    (c : Constraints) : Option Rocket :=
  (try_build_stages c stage_specs.enum.reverse payload).map
    (fun stages => ⟨stages.reverse, payload⟩)

/-- `BruteForceOptimizer::generate_recursive`, structurally on the number of
stages still to fill (`remaining = total_stages - current_stage`); the
nesting order (engine, then count, then propellant) is the source's. -/
def gen_configs (first_stage_engines upper_stage_engines : List Engine)
    (propellant_values : List ℝ) (max_engines : ℕ) :
    ℕ → ℕ → List (List StageSpec)
  | _, 0 => [[]]
  | current_stage, remaining + 1 =>
    let engines := if current_stage = 0 then first_stage_engines
      else upper_stage_engines
    let engine_limit := min engines.length 3
    (engines.take engine_limit).flatMap fun engine =>
      ((List.range max_engines).map (· + 1)).flatMap fun engine_count =>
        propellant_values.flatMap fun propellant_kg =>
          (gen_configs first_stage_engines upper_stage_engines propellant_values
              max_engines (current_stage + 1) remaining).map
            (fun tail => ⟨engine, engine_count, propellant_kg⟩ :: tail)

/-- `BruteForceOptimizer::generate_configurations`. -/
def generate_configurations (cfg : BruteForceConfig) (p : Problem)
    (stage_count : ℕ) (propellant_values : List ℝ) : List (List StageSpec) :=
  let sorted := sort_engines_by_preference cfg p.available_engines
  gen_configs sorted.1 sorted.2 propellant_values
    p.constraints.max_engines_per_stage 0 stage_count

/-- One configuration of `BruteForceOptimizer::parallel_search`: build the
rocket, keep it when it meets the delta-v target and beats the best total
mass so far. -/
def search_step (p : Problem) (best : Option (Rocket × ℝ))
    (specs : List StageSpec) : Option (Rocket × ℝ) :=
  match try_build_rocket specs p.payload p.constraints with
  | some rocket =>
    if rocket.total_delta_v ≥ p.target_delta_v then
      let total_mass := rocket.total_mass
      match best with
      | none => some (rocket, total_mass)
      | some (_, best_mass) =>
        if total_mass < best_mass then some (rocket, total_mass) else best
    else best
  | none => best

/-- `BruteForceOptimizer::parallel_search`.  The Rust workers race for a
mutex-guarded best record; the final best-by-total-mass is independent of
the arbitration order, modelled here as a left fold in list order. -/
def parallel_search (p : Problem) (configs : List (List StageSpec)) :
    Option (Rocket × ℝ) :=
  configs.foldl (search_step p) none

/-- The `engines_to_try` accumulation of
`BruteForceOptimizer::generate_refined_recursive`: the stage's original
engine plus up to two ranked alternatives with distinct names. -/
def engines_to_try (base : Engine) (alternatives : List Engine) : List Engine :=
  (alternatives.take 2).foldl
    (fun acc alt =>
      if alt.name ≠ base.name ∧ ∀ e ∈ acc, e.name ≠ alt.name
      then acc ++ [alt] else acc)
    [base]

/-- `BruteForceOptimizer::generate_refined_recursive`, structurally on the
remaining stage count. -/
def gen_refined (cfg : BruteForceConfig) (stage_engines : List Engine)
    (refined_ranges : List (ℝ × ℝ)) (max_engines : ℕ)
    (first_stage_engines upper_stage_engines : List Engine) :
    ℕ → ℕ → List (List StageSpec)
  | _, 0 => [[]]
  | current_stage, remaining + 1 =>
    let range := refined_ranges.getD current_stage (0, 0)
    let propellant_values := propellant_grid cfg.fine_steps range.1 range.2
    let base_engine := stage_engines.getD current_stage default
    let alternatives := if current_stage = 0 then first_stage_engines
      else upper_stage_engines
    (engines_to_try base_engine alternatives).flatMap fun engine =>
      ((List.range max_engines).map (· + 1)).flatMap fun engine_count =>
        propellant_values.flatMap fun propellant_kg =>
          (gen_refined cfg stage_engines refined_ranges max_engines
              first_stage_engines upper_stage_engines (current_stage + 1)
              remaining).map
            (fun tail => ⟨engine, engine_count, propellant_kg⟩ :: tail)

/-- The refined configuration list of
`BruteForceOptimizer::refine_around_solution`: ±30% propellant ranges
around the best rocket's stages (floored at the configured minimum). -/
def refined_configs (cfg : BruteForceConfig) (p : Problem)
    (best_rocket : Rocket) : List (List StageSpec) :=
  let stages := best_rocket.stages
  let refined_ranges := stages.map (fun s =>
    (max (s.propellant_mass - s.propellant_mass * 0.3) cfg.min_propellant_kg,
     s.propellant_mass + s.propellant_mass * 0.3))
  let sorted := sort_engines_by_preference cfg p.available_engines
  gen_refined cfg (stages.map Stage.engine) refined_ranges
    p.constraints.max_engines_per_stage sorted.1 sorted.2 0 stages.length

/-- `BruteForceOptimizer::refine_around_solution`. -/
def refine_around_solution (cfg : BruteForceConfig) (p : Problem)
    (best_rocket : Rocket) : Option (Rocket × ℝ) :=
  parallel_search p (refined_configs cfg p best_rocket)

/-- One stage count of the coarse phase of `BruteForceOptimizer::optimize`. -/
def coarse_step (cfg : BruteForceConfig) (p : Problem)
    (coarse_propellant : List ℝ) (best : Option (Rocket × ℝ))
    (stage_count : ℕ) : Option (Rocket × ℝ) :=
  match parallel_search p (generate_configurations cfg p stage_count
      coarse_propellant) with
  | some (rocket, mass) =>
    match best with
    | none => some (rocket, mass)
    | some (_, best_mass) =>
      if mass < best_mass then some (rocket, mass) else best
  | none => best

/-- The stage counts `min_stages..=max_stages` tried by the coarse phase. -/
def stage_count_range (p : Problem) : List ℕ :=
  let min_stages := p.stage_count.getD 1
  let max_stages := p.stage_count.getD p.constraints.max_stages
  (List.range (max_stages + 1 - min_stages)).map (· + min_stages)

/-- The value of the shared progress counter when `BruteForceOptimizer::
optimize` returns: it is reset to zero before the refinement phase, so
after a successful coarse phase it counts the refined configurations,
otherwise all coarse configurations. -/
def brute_force_iterations (cfg : BruteForceConfig) (p : Problem)
    (coarse_propellant : List ℝ) (best : Option (Rocket × ℝ)) : ℕ :=
  match best with
  | some (rocket, _) => (refined_configs cfg p rocket).length
  | none =>
    ((stage_count_range p).map
      (fun n => (generate_configurations cfg p n coarse_propellant).length)).sum

/-- `BruteForceOptimizer::optimize`: validity check, coarse phase over the
stage-count range, refinement around the coarse best, and the final
best-by-mass as the solution. -/
def BruteForceOptimizer.optimize (cfg : BruteForceConfig) (p : Problem) :
    Except OptimizeError Solution :=
  match p.is_valid with
  | .error e => .error (.invalidProblem e)
  | .ok _ =>
    let coarse_propellant := propellant_grid cfg.coarse_steps
      cfg.min_propellant_kg cfg.max_propellant_kg
    let best := (stage_count_range p).foldl
      (coarse_step cfg p coarse_propellant) none
    let best2 :=
      match best with
      | some (best_rocket, best_mass) =>
        match refine_around_solution cfg p best_rocket with
        | some (refined_rocket, refined_mass) =>
          if refined_mass < best_mass then some (refined_rocket, refined_mass)
          else best
        | none => best
      | none => none
    match best2 with
    | some (rocket, _) =>
      .ok (Solution.with_metadata rocket p.target_delta_v
        (brute_force_iterations cfg p coarse_propellant best) "BruteForce")
    | none => .error (.infeasible "No feasible configuration found")

/-! ## Uncertainty (src/optimizer/uncertainty.rs) -/

structure Uncertainty where
  isp_percent : ℝ
  thrust_percent : ℝ
  structural_percent : ℝ

/-- `Uncertainty::none()`. -/
def Uncertainty.none : Uncertainty := ⟨0, 0, 0⟩

/-- `Uncertainty::is_zero()`. -/
def Uncertainty.is_zero (u : Uncertainty) : Prop :=
  u.isp_percent = 0 ∧ u.thrust_percent = 0 ∧ u.structural_percent = 0

instance (u : Uncertainty) : Decidable u.is_zero := by
  unfold Uncertainty.is_zero; infer_instance

/-! ## Monte Carlo (src/optimizer/monte_carlo.rs) -/

/-- `MonteCarloResults` (the runtime field is omitted). -/
structure MonteCarloResults where
  delta_v_samples : List ℝ
  mass_samples : List ℝ
  successes : ℕ
  total_runs : ℕ
  failures : ℕ
  target_delta_v : ℝ
  nominal_solution : Solution

/-- `MonteCarloResults::success_probability`. -/
def MonteCarloResults.success_probability (res : MonteCarloResults) : ℝ :=
  if res.total_runs = 0 then 0
  else (res.successes : ℝ) / (res.total_runs : ℝ)

/-- `percentile_of` (free function in src/optimizer/monte_carlo.rs):
nearest-rank on the sorted copy of the samples.  Rust's `f64::round` is
round-half-away-from-zero, which on the nonnegative value
`p * (len - 1)` is `⌊x + 1/2⌋`. -/
def percentile_of (samples : List ℝ) (percentile : ℝ) : ℝ :=
  if samples.isEmpty then 0
  else
    let sorted := samples.mergeSort (fun a b => decide (a ≤ b))
    let p := min (max percentile 0) 100 / 100
    let idx := ⌊p * ((samples.length - 1 : ℕ) : ℝ) + 1 / 2⌋₊
    sorted.getD (min idx (samples.length - 1)) 0

/-- `MonteCarloResults::delta_v_percentile`. -/
def MonteCarloResults.delta_v_percentile (res : MonteCarloResults)
    (percentile : ℝ) : ℝ :=
  percentile_of res.delta_v_samples percentile

/-- `MonteCarloResults::mass_percentile`. -/
def MonteCarloResults.mass_percentile (res : MonteCarloResults)
    (percentile : ℝ) : ℝ :=
  percentile_of res.mass_samples percentile

/-- `MonteCarloResults::required_margin`. -/
def MonteCarloResults.required_margin (res : MonteCarloResults)
    (confidence : ℝ) : ℝ :=
  if res.delta_v_samples.isEmpty then 0
  else
    let failure_percentile := (1 - confidence) * 100
    let dv_at_percentile := res.delta_v_percentile failure_percentile
    max (res.target_delta_v - dv_at_percentile) 0

/-- `MonteCarloRunner::optimize_problem`: analytical for a single-engine
problem with stage count fixed at 2, brute force (default parameters)
otherwise. -/
def optimize_problem (p : Problem) : Except OptimizeError Solution :=
  if p.is_single_engine = true ∧ p.stage_count = some 2 then
    AnalyticalOptimizer.optimize p
  else BruteForceOptimizer.optimize BruteForceConfig.default p

/-- One Monte Carlo draw: the Rust sampler multiplies each engine's thrust
and Isp figures by factors from a thread-local normal distribution and
clamps the perturbed structural ratio to [0.01, 0.5]; a draw is abstracted
here as the resulting per-engine map together with the resulting
structural ratio. -/
structure Perturbation where
  engine_map : Engine → Engine
  structural_ratio : ℝ

/-- The perturbed `Problem` one Monte Carlo iteration rebuilds: payload,
target, stage count and the other constraints are carried over unchanged. -/
def perturbed_problem (p : Problem) (pert : Perturbation) : Problem :=
  { payload := p.payload
    target_delta_v := p.target_delta_v
    available_engines := p.available_engines.map pert.engine_map
    constraints := { p.constraints with structural_ratio := pert.structural_ratio }
    stage_count := p.stage_count }

/-- The accumulators of the parallel Monte Carlo loop: the two sample
vectors, the success counter and the failure counter. -/
structure McAccum where
  dv : List ℝ
  mass : List ℝ
  successes : ℕ
  failures : ℕ

/-- One iteration of the Monte Carlo loop: record delta-v and mass on
success (counting the run as a success when it meets the target), or
count a failure; errors never escape the loop. -/
def mc_step (target : ℝ) (outcome : Except OptimizeError Solution)
    (acc : McAccum) : McAccum :=
  match outcome with
  | .ok solution =>
    { acc with
      dv := acc.dv ++ [solution.rocket.total_delta_v]
      mass := acc.mass ++ [solution.rocket.total_mass]
      successes := if solution.rocket.total_delta_v ≥ target
        then acc.successes + 1 else acc.successes }
  | .error _ => { acc with failures := acc.failures + 1 }

/-- The `(0..iterations).into_par_iter().for_each` loop: iteration `n` draws
`draws n`, rebuilds the problem and re-optimizes.  The workers run in
parallel and push into mutex-guarded vectors, so the sample order is an
arbitrary interleaving; the counts and the sample multiset are
order-independent, and the loop is modelled in index order. -/
def mc_samples (p : Problem) (draws : ℕ → Perturbation) (target : ℝ) :
    ℕ → McAccum
  | 0 => ⟨[], [], 0, 0⟩
  | n + 1 =>
    mc_step target (optimize_problem (perturbed_problem p (draws n)))
      (mc_samples p draws target n)

/-- `MonteCarloRunner::run`: validate, solve the nominal problem (its error
propagates), return the single-sample result when the uncertainty is zero,
otherwise run `iterations` perturbed samples. -/
def MonteCarloRunner.run (u : Uncertainty) (draws : ℕ → Perturbation)
    (p : Problem) (iterations : ℕ) : Except OptimizeError MonteCarloResults :=
  match p.is_valid with
  | .error e => .error (.invalidProblem e)
  | .ok _ =>
    match optimize_problem p with
    | .error e => .error e
    | .ok nominal_solution =>
      if u.is_zero then
        .ok { delta_v_samples := [nominal_solution.rocket.total_delta_v]
              mass_samples := [nominal_solution.rocket.total_mass]
              successes := 1
              total_runs := 1
              failures := 0
              target_delta_v := p.target_delta_v
              nominal_solution := nominal_solution }
      else
        let acc := mc_samples p draws p.target_delta_v iterations
        .ok { delta_v_samples := acc.dv
              mass_samples := acc.mass
              successes := acc.successes
              total_runs := iterations
              failures := acc.failures
              target_delta_v := p.target_delta_v
              nominal_solution := nominal_solution }

/-! ## Verification predicates (not part of the source; used to state the
brute-force invariant) -/

/-- The feasibility the brute-force search guarantees for any rocket it
keeps: nonempty, sea-level liftoff TWR at least the liftoff minimum, every
upper stage's vacuum TWR at least the stage minimum, and the delta-v
target met. -/
def bf_feasible (p : Problem) (r : Rocket) : Prop :=
  r.stages ≠ [] ∧
  p.constraints.min_liftoff_twr ≤ r.liftoff_twr ∧
  (∀ i, 1 ≤ i → i < r.stages.length →
    p.constraints.min_stage_twr ≤ r.stage_twr i) ∧
  p.target_delta_v ≤ r.total_delta_v

/-- The invariant of the shared best-so-far record. -/
def bf_good (p : Problem) : Option (Rocket × ℝ) → Prop
  | Option.none => True
  | some rm => bf_feasible p rm.1

/-! ## Concrete values used by counterexamples and witnesses -/

/-- A powerful single engine used in concrete optimizer runs. -/
def engineEx : Engine := ⟨"Ex", 1000000000, 1000000000, 300, 350, 100⟩

/-- The per-stage delta-v of the concrete analytical run: chosen so the
required mass ratio is exactly `exp (log 2) = 2`. -/
def dvEx : ℝ := 350 * G0 * Real.log 2

/-- Target delta-v whose 2%-inflated half is exactly `dvEx`. -/
def targetEx : ℝ := 2 * dvEx / 1.02

def constraintsEx : Constraints := ⟨1.2, 0.5, 3, 1 / 2, 9⟩

/-- A valid single-engine two-stage problem the analytical optimizer solves
exactly. -/
def pEx : Problem := ⟨1000, targetEx, [engineEx], constraintsEx, some 2⟩

def stage2Ex : Stage := Stage.with_structural_ratio engineEx 1 2200 (1 / 2)

def stage1Ex : Stage := Stage.with_structural_ratio engineEx 1 9000 (1 / 2)

def rocketEx : Rocket := ⟨[stage1Ex, stage2Ex], 1000⟩

/-- The solution the analytical optimizer returns on `pEx`. -/
def solEx : Solution :=
  ⟨rocketEx, rocketEx.total_delta_v - targetEx, 1, "Analytical"⟩

/-- Per-stage delta-v for the infeasible concrete problem: required mass
ratio `exp (log 3) = 3`. -/
def dvC9 : ℝ := 350 * G0 * Real.log 3

def targetC9 : ℝ := 2 * dvC9 / 1.02

/-- Structural ratio 0.9 is valid (inside (0,1)) but makes the closed-form
denominator `1 + 0.9 × (1 − 3)` negative. -/
def constraintsC9 : Constraints := ⟨1.2, 0.5, 3, 0.9, 9⟩

/-- A valid single-engine two-stage problem whose nominal optimization is
infeasible. -/
def pC9 : Problem := ⟨1000, targetC9, [engineEx], constraintsC9, some 2⟩

/-- A non-zero uncertainty. -/
def uC9 : Uncertainty := ⟨1, 0, 0⟩

/-- An arbitrary fixed draw sequence (identity engine perturbation). -/
def drawsC9 : ℕ → Perturbation := fun _ => ⟨id, 0.08⟩

/-- A placeholder nominal solution for concrete `MonteCarloResults` values. -/
def solutionTrivial : Solution := ⟨⟨[default], 0⟩, 0, 0, ""⟩

/-- A concrete results value with delta-v samples `[3, 1, 2]`. -/
def res7 : MonteCarloResults := ⟨[3, 1, 2], [], 0, 0, 0, 10, solutionTrivial⟩

/-- A zero-propellant stage: its mass ratio is 1 whatever it carries. -/
def stageC6 : Stage := ⟨⟨"C6", 1, 1, 300, 350, 5⟩, 1, 0, 7⟩

/-- A stage used to instantiate the monotonicity theorem. -/
def stageC6w : Stage := ⟨⟨"C6w", 1, 1, 300, 350, 5⟩, 1, 10, 2⟩

/-- An engine whose sea-level thrust is 1.6 rocket-weights but whose vacuum
thrust is only 1.0 rocket-weights on `rocketC2`. -/
def engineC2 : Engine := ⟨"C2", 16 * G0, 10 * G0, 300, 350, 5⟩

/-- A single-stage rocket of total mass 10 (stage dry mass 8, propellant 2,
payload 0). -/
def rocketC2 : Rocket := ⟨[⟨engineC2, 1, 2, 3⟩], 0⟩

def engineC1 : Engine := ⟨"C1", 1, 1, 1, 1, 1⟩

/-- A valid single-engine problem whose stage count is not fixed. -/
def pC1none : Problem := ⟨1, 1, [engineC1], Constraints.default, Option.none⟩

/-- A problem with an empty candidate engine list. -/
def pC1noeng : Problem := ⟨1, 1, [], Constraints.default, Option.none⟩

/-- An engine whose thrust is 192000 rocket-weights, chosen so the coarse
brute-force candidate passes the liftoff TWR check but the refined
candidate (more propellant) fails it. -/
def e5 : Engine := ⟨"E5", 192000 * G0, 192000 * G0, 300, 350, 100⟩

def c5 : Constraints := ⟨1.2, 0.5, 3, 1 / 2, 1⟩

/-- A one-step grid pinned at 100000 kg of propellant. -/
def cfg5 : BruteForceConfig := ⟨1, 1, 100000, 100000, true⟩

/-- A valid single-engine problem with one stage for the brute force run. -/
def p5 : Problem := ⟨1000, 1, [e5], c5, some 1⟩

/-- The single coarse candidate stage: 100000 kg propellant, structural
ratio 1/2. -/
def stage5 : Stage := Stage.with_structural_ratio e5 1 100000 (1 / 2)

def rocket5 : Rocket := ⟨[stage5], 1000⟩

/-- The solution the brute force optimizer returns on `cfg5`/`p5`: the
coarse candidate survives, the single refined candidate fails its TWR
check, and the iteration counter holds the one refined configuration. -/
def sol5 : Solution := Solution.with_metadata rocket5 1 1 "BruteForce"

end

end Tsi

namespace Tsi

/-! ## General lemmas about the embedded code -/

theorem G0_pos : (0 : ℝ) < G0 := by norm_num [G0]

theorem check_stage_twrs_ok_iff (r : Rocket) (m : ℝ) (l : List ℕ) :
    check_stage_twrs r m l = .ok () ↔ ∀ i ∈ l, m ≤ r.stage_twr i := by
  induction l with
  | nil => simp [check_stage_twrs]
  | cons i rest ih =>
    by_cases h : r.stage_twr i < m
    · simp only [check_stage_twrs, if_pos h]
      constructor
      · intro hcontr; exact absurd hcontr (by simp)
      · intro hall; exact absurd (hall i (by simp)) (not_le.mpr h)
    · simp only [check_stage_twrs, if_neg h]
      rw [ih]
      constructor
      · intro hall j hj
        rcases List.mem_cons.mp hj with rfl | hj
        · exact not_lt.mp h
        · exact hall j hj
      · intro hall j hj; exact hall j (List.mem_cons_of_mem _ hj)

theorem check_stage_twrs_error (r : Rocket) (m : ℝ) (l : List ℕ)
    (i : ℕ) (t req : ℝ)
    (h : check_stage_twrs r m l = .error (.insufficientStageTwr i t req)) :
    i ∈ l ∧ t = r.stage_twr i ∧ t < m ∧ req = m := by
  induction l with
  | nil => simp [check_stage_twrs] at h
  | cons j rest ih =>
    by_cases hj : r.stage_twr j < m
    · simp only [check_stage_twrs, if_pos hj] at h
      obtain ⟨rfl, rfl, rfl⟩ :
          j = i ∧ r.stage_twr j = t ∧ m = req := by
        have := h
        simp only [Except.error.injEq, TwrError.insufficientStageTwr.injEq] at this
        exact this
      exact ⟨by simp, rfl, hj, rfl⟩
    · simp only [check_stage_twrs, if_neg hj] at h
      obtain ⟨hmem, ht, hlt, hreq⟩ := ih h
      exact ⟨List.mem_cons_of_mem _ hmem, ht, hlt, hreq⟩

/-- C2 (corrected).  `Rocket::validate_twr(min_twr, require_liftoff)`
succeeds iff the liftoff check passes (sea-level TWR of the whole rocket at
least 1 whenever `require_liftoff`) and every stage — stage 0 included, and
always using vacuum thrust — has TWR at least `min_twr` against the mass it
carries; a stage-TWR error identifies an in-range offending stage index
whose vacuum TWR is below the minimum.  (The original claim's reading that
stage 0 is checked against `min_twr` with sea-level thrust when
`require_liftoff` is set does not match the code: sea-level thrust is used
only for the liftoff-≥-1 check.) -/
theorem validate_twr_spec (r : Rocket) (min_twr : ℝ) (require_liftoff : Bool) :
    (r.validate_twr min_twr require_liftoff = .ok () ↔
      ((require_liftoff = true → 1 ≤ r.liftoff_twr) ∧
        ∀ i < r.stages.length, min_twr ≤ r.stage_twr i)) ∧
    (∀ i t req,
      r.validate_twr min_twr require_liftoff
          = .error (.insufficientStageTwr i t req) →
      i < r.stages.length ∧ t = r.stage_twr i ∧ t < min_twr ∧ req = min_twr) := by
  constructor
  · unfold Rocket.validate_twr
    by_cases hl : require_liftoff = true ∧ r.liftoff_twr < 1
    · rw [if_pos hl]
      constructor
      · intro hcontr; exact absurd hcontr (by simp)
      · rintro ⟨h1, -⟩
        exact absurd (h1 hl.1) (not_le.mpr hl.2)
    · rw [if_neg hl]
      rw [check_stage_twrs_ok_iff]
      constructor
      · intro hall
        refine ⟨fun hrl => ?_, fun i hi => hall i (List.mem_range.mpr hi)⟩
        by_contra hlt
        exact hl ⟨hrl, not_le.mp hlt⟩
      · rintro ⟨-, hall⟩ i hi
        exact hall i (List.mem_range.mp hi)
  · intro i t req h
    unfold Rocket.validate_twr at h
    by_cases hl : require_liftoff = true ∧ r.liftoff_twr < 1
    · rw [if_pos hl] at h
      exact absurd h (by simp)
    · rw [if_neg hl] at h
      obtain ⟨hmem, ht, hlt, hreq⟩ := check_stage_twrs_error r min_twr _ i t req h
      exact ⟨List.mem_range.mp hmem, ht, hlt, hreq⟩

/-- C2's counterexample to the claim as stated: on `rocketC2` with
`min_twr = 1.5` and `require_liftoff = true`, every condition the claim
names for an error is absent — the liftoff TWR is 1.6 ≥ 1 and stage 0's
TWR computed with sea-level thrust is 1.6 ≥ 1.5 — yet `validate_twr`
returns a stage-TWR error, because it checks stage 0 with vacuum thrust
(TWR 1.0 < 1.5). -/
theorem validate_twr_cex :
    1 ≤ rocketC2.liftoff_twr ∧
    (1.5 : ℝ) ≤ rocketC2.stages.headI.twr_sl_with_payload
      (rocketC2.mass_above_stage 0) ∧
    rocketC2.validate_twr 1.5 true
      = .error (.insufficientStageTwr 0 (rocketC2.stage_twr 0) 1.5) := by
  have hG := G0_pos
  have hlift : rocketC2.liftoff_twr = 1.6 := by
    unfold Rocket.liftoff_twr Rocket.total_mass twr rocketC2 engineC2
    simp [Stage.thrust_sl, Stage.wet_mass, Stage.dry_mass, Stage.engine_mass,
      List.headI]
    field_simp
    ring
  have hsl : rocketC2.stages.headI.twr_sl_with_payload (rocketC2.mass_above_stage 0)
      = 1.6 := by
    unfold Stage.twr_sl_with_payload Rocket.mass_above_stage twr rocketC2 engineC2
    simp [Stage.thrust_sl, Stage.wet_mass, Stage.dry_mass, Stage.engine_mass,
      List.headI]
    field_simp
    ring
  have hvac : rocketC2.stage_twr 0 = 1 := by
    unfold Rocket.stage_twr Stage.twr_vac_with_payload Rocket.mass_above_stage
      twr rocketC2 engineC2
    simp [Stage.thrust_vac, Stage.wet_mass, Stage.dry_mass, Stage.engine_mass]
    field_simp
    norm_num
  refine ⟨by rw [hlift]; norm_num, by rw [hsl]; norm_num, ?_⟩
  unfold Rocket.validate_twr
  rw [if_neg (by rw [hlift]; norm_num)]
  show check_stage_twrs rocketC2 1.5 (List.range 1) = _
  have : List.range 1 = [0] := rfl
  rw [this]
  unfold check_stage_twrs
  rw [if_pos (by rw [hvac]; norm_num)]

/-- C10.  The derived statistics are total on empty data: zero total runs
give success probability 0, empty sample vectors give percentile 0 and
required margin 0. -/
theorem mc_statistics_total_on_empty (res : MonteCarloResults)
    (pct confidence : ℝ) :
    (res.total_runs = 0 → res.success_probability = 0) ∧
    (res.delta_v_samples = [] → res.delta_v_percentile pct = 0) ∧
    (res.mass_samples = [] → res.mass_percentile pct = 0) ∧
    (res.delta_v_samples = [] → res.required_margin confidence = 0) := by
  refine ⟨fun h => ?_, fun h => ?_, fun h => ?_, fun h => ?_⟩
  · simp [MonteCarloResults.success_probability, h]
  · simp [MonteCarloResults.delta_v_percentile, percentile_of, h]
  · simp [MonteCarloResults.mass_percentile, percentile_of, h]
  · simp [MonteCarloResults.required_margin, h]

/-- C7.  On a nonempty delta-v sample vector, the delta-v percentile is
computed by nearest-rank (round the fractional index `p × (n − 1)` to the
nearest integer, with no linear interpolation) on the sorted samples —
stated against any sorted permutation `l` of the samples — and
`required_margin(C)` is the target delta-v minus the delta-v at the
`(1 − C) × 100`-th percentile, floored at zero. -/
theorem percentile_nearest_rank_spec (res : MonteCarloResults) (l : List ℝ)
    (confidence : ℝ)
    (hne : res.delta_v_samples ≠ [])
    (hperm : List.Perm l res.delta_v_samples)
    (hsorted : l.Sorted (· ≤ ·)) :
    (∀ pct, res.delta_v_percentile pct
      = l.getD (min (⌊min (max pct 0) 100 / 100
            * ((res.delta_v_samples.length - 1 : ℕ) : ℝ) + 1 / 2⌋₊)
          (res.delta_v_samples.length - 1)) 0) ∧
    res.required_margin confidence
      = max 0 (res.target_delta_v
          - res.delta_v_percentile ((1 - confidence) * 100)) := by
  have hsort_eq : res.delta_v_samples.mergeSort (fun a b => decide (a ≤ b)) = l :=
    List.eq_of_perm_of_sorted
      ((List.mergeSort_perm res.delta_v_samples _).trans hperm.symm)
      (List.sorted_mergeSort' res.delta_v_samples) hsorted
  constructor
  · intro pct
    unfold MonteCarloResults.delta_v_percentile percentile_of
    rw [if_neg (by simpa using hne)]
    rw [hsort_eq]
  · unfold MonteCarloResults.required_margin
    rw [if_neg (by simpa using hne)]
    exact max_comm _ _

theorem percentile_nearest_rank_witness :
    (∀ pct, res7.delta_v_percentile pct
      = List.getD [1, 2, 3] (min (⌊min (max pct 0) 100 / 100
            * ((res7.delta_v_samples.length - 1 : ℕ) : ℝ) + 1 / 2⌋₊)
          (res7.delta_v_samples.length - 1)) 0) ∧
    res7.required_margin 0.95
      = max 0 (res7.target_delta_v
          - res7.delta_v_percentile ((1 - 0.95) * 100)) :=
  percentile_nearest_rank_spec res7 [1, 2, 3] 0.95
    (by simp [res7])
    (by
      have h1 : List.Perm ((3 : ℝ) :: 1 :: [2]) (1 :: 3 :: [2]) :=
        List.Perm.swap 1 3 [2]
      have h2 : List.Perm ((3 : ℝ) :: [2]) (2 :: [3]) := List.Perm.swap 2 3 []
      have h3 : List.Perm ((1 : ℝ) :: 3 :: [2]) (1 :: 2 :: [3]) :=
        List.Perm.cons 1 h2
      show List.Perm [(1 : ℝ), 2, 3] res7.delta_v_samples
      exact (h1.trans h3).symm)
    (by norm_num [List.sorted_cons, res7])

/-- C6 (corrected).  `Stage::delta_v_with_payload(extra)` recomputes the
mass ratio as `(wet + extra) / (dry + extra)`, and is strictly decreasing
in the extra mass for every stage with positive dry mass, positive
propellant mass and positive vacuum Isp.  (Positivity is needed: a
zero-propellant stage has mass ratio 1 and constant zero delta-v, see the
counterexample.) -/
theorem delta_v_with_payload_strict_anti (s : Stage) (extra1 extra2 : ℝ)
    (hdry : 0 < s.dry_mass) (hprop : 0 < s.propellant_mass)
    (hisp : 0 < s.isp_vac) (h1 : 0 ≤ extra1) (h12 : extra1 < extra2) :
    s.delta_v_with_payload extra1
      = delta_v s.isp_vac ((s.wet_mass + extra1) / (s.dry_mass + extra1)) ∧
    s.delta_v_with_payload extra2 < s.delta_v_with_payload extra1 := by
  refine ⟨rfl, ?_⟩
  have hwet : s.wet_mass = s.dry_mass + s.propellant_mass := rfl
  have hd1 : 0 < s.dry_mass + extra1 := by linarith
  have hd2 : 0 < s.dry_mass + extra2 := by linarith
  have hratio2_pos : 0 < (s.wet_mass + extra2) / (s.dry_mass + extra2) := by
    apply div_pos _ hd2
    rw [hwet]; linarith
  have hratio_lt : (s.wet_mass + extra2) / (s.dry_mass + extra2)
      < (s.wet_mass + extra1) / (s.dry_mass + extra1) := by
    rw [div_lt_div_iff₀ hd2 hd1, hwet]
    nlinarith
  have hlog := Real.log_lt_log hratio2_pos hratio_lt
  unfold Stage.delta_v_with_payload delta_v
  have hcoef : 0 < s.isp_vac * G0 := mul_pos hisp G0_pos
  calc s.isp_vac * G0 * Real.log ((s.wet_mass + extra2) / (s.dry_mass + extra2))
      < s.isp_vac * G0 * Real.log ((s.wet_mass + extra1) / (s.dry_mass + extra1)) :=
        by exact mul_lt_mul_of_pos_left hlog hcoef

/-- C6's counterexample to the claim as stated: for the zero-propellant
stage `stageC6`, the delta-v with extra mass 1 equals the delta-v with
extra mass 2 (both are zero), so the function is not strictly decreasing
for every stage. -/
theorem delta_v_with_payload_cex :
    (0 : ℝ) < 1 ∧ (1 : ℝ) < 2 ∧
    stageC6.delta_v_with_payload 1 = stageC6.delta_v_with_payload 2 := by
  refine ⟨by norm_num, by norm_num, ?_⟩
  unfold Stage.delta_v_with_payload delta_v stageC6
  simp [Stage.isp_vac, Stage.wet_mass, Stage.dry_mass, Stage.engine_mass]
  norm_num

/-- C3.  `calculate_stage_propellant` returns exactly
`(fixed_mass × (R − 1)) / (1 + ε × (1 − R))` with
`fixed_mass = engine dry mass × count + mass above` and
`R = exp(dv / (Isp × g₀))`, and returns an `Infeasible` error exactly when
`R < 1`, when the denominator `1 + ε × (1 − R)` is nonpositive, or when the
computed propellant mass is nonpositive. -/
theorem calculate_stage_propellant_spec (dv : ℝ) (engine : Engine)
    (count : ℕ) (eps above : ℝ) :
    (∀ m, calculate_stage_propellant dv engine count eps above = .ok m →
      m = ((engine.dry_mass * count + above)
            * (Real.exp (dv / (engine.isp_vac * G0)) - 1))
          / (1 + eps * (1 - Real.exp (dv / (engine.isp_vac * G0))))) ∧
    ((∃ reason, calculate_stage_propellant dv engine count eps above
        = .error (.infeasible reason)) ↔
      Real.exp (dv / (engine.isp_vac * G0)) < 1 ∨
      1 + eps * (1 - Real.exp (dv / (engine.isp_vac * G0))) ≤ 0 ∨
      ((engine.dry_mass * count + above)
          * (Real.exp (dv / (engine.isp_vac * G0)) - 1))
        / (1 + eps * (1 - Real.exp (dv / (engine.isp_vac * G0)))) ≤ 0) := by
  unfold calculate_stage_propellant required_mass_ratio
  set R := Real.exp (dv / (engine.isp_vac * G0)) with hR
  constructor
  · intro m hm
    dsimp only at hm
    split_ifs at hm with h1 h2 h3
    exact (Except.ok.inj hm).symm
  · dsimp only
    split_ifs with h1 h2 h3
    · simp only [Except.error.injEq, OptimizeError.infeasible.injEq,
        exists_eq']
      tauto
    · simp only [Except.error.injEq, OptimizeError.infeasible.injEq,
        exists_eq']
      tauto
    · simp only [Except.error.injEq, OptimizeError.infeasible.injEq,
        exists_eq']
      tauto
    · constructor
      · rintro ⟨reason, hcontr⟩
        exact absurd hcontr (by simp)
      · intro hcases
        rcases hcases with h | h | h
        · exact absurd h h1
        · exact absurd h h2
        · exact absurd h h3

/-! ### C1: where `Unsupported` can come from -/

theorem calculate_stage_propellant_not_unsupported (dv : ℝ) (engine : Engine)
    (count : ℕ) (eps above : ℝ) (reason : String) :
    calculate_stage_propellant dv engine count eps above
      ≠ .error (.unsupported reason) := by
  unfold calculate_stage_propellant
  dsimp only
  split_ifs <;> simp

theorem determine_engine_count_from_not_unsupported (engine : Engine)
    (pm sr pa mt : ℝ) (ifs : Bool) (l : List ℕ) (reason : String) :
    determine_engine_count_from engine pm sr pa mt ifs l
      ≠ .error (.unsupported reason) := by
  induction l with
  | nil => simp [determine_engine_count_from]
  | cons c rest ih =>
    rw [determine_engine_count_from]
    split_ifs with hb hc1 hc2
    · simp
    · exact ih
    · simp
    · exact ih

theorem solve_stage_loop_not_unsupported (dv : ℝ) (engine : Engine)
    (sr pa mt : ℝ) (me : ℕ) (ifs : Bool) (fuel count : ℕ) (reason : String) :
    solve_stage_loop dv engine sr pa mt me ifs fuel count
      ≠ .error (.unsupported reason) := by
  induction fuel generalizing count with
  | zero => simp [solve_stage_loop]
  | succ n ih =>
    rw [solve_stage_loop]
    cases hc : calculate_stage_propellant dv engine count sr pa with
    | error e =>
      intro hcontr
      simp only [Except.error.injEq] at hcontr
      subst hcontr
      exact calculate_stage_propellant_not_unsupported dv engine count sr pa
        reason hc
    | ok propellant =>
      cases hd : determine_engine_count engine propellant sr pa mt me ifs with
      | error e =>
        intro hcontr
        simp only [hd, Except.error.injEq] at hcontr
        subst hcontr
        exact determine_engine_count_from_not_unsupported engine propellant sr
          pa mt ifs _ reason hd
      | ok needed =>
        simp only [hd]
        split_ifs with hn
        · simp
        · exact ih needed

theorem analytical_solve_not_unsupported (p : Problem) (engine : Engine)
    (reason : String) :
    analytical_solve p engine ≠ .error (.unsupported reason) := by
  unfold analytical_solve
  intro hcontr
  dsimp only at hcontr
  split at hcontr
  · rename_i e heq
    injection hcontr with h
    rw [h] at heq
    exact solve_stage_loop_not_unsupported _ _ _ _ _ _ _ _ _ _ heq
  · split at hcontr
    · rename_i e heq
      injection hcontr with h
      rw [h] at heq
      exact solve_stage_loop_not_unsupported _ _ _ _ _ _ _ _ _ _ heq
    · split at hcontr
      · exact absurd hcontr (by simp)
      · split_ifs at hcontr
        all_goals exact absurd hcontr (by simp)

/-! ### C4: the closed-form solve is exact in real arithmetic -/

theorem is_valid_ok_pos (p : Problem) (h : p.is_valid = .ok ()) :
    0 < p.payload ∧ 0 < p.target_delta_v := by
  constructor
  · by_contra hc
    push_neg at hc
    unfold Problem.is_valid at h
    rw [if_pos hc] at h
    exact Except.noConfusion h
  · by_contra hc
    push_neg at hc
    unfold Problem.is_valid at h
    by_cases h1 : p.payload ≤ 0
    · rw [if_pos h1] at h; exact Except.noConfusion h
    · rw [if_neg h1, if_pos hc] at h; exact Except.noConfusion h

theorem calculate_stage_propellant_ok (dv : ℝ) (e : Engine) (n : ℕ)
    (eps above m : ℝ)
    (h : calculate_stage_propellant dv e n eps above = .ok m) :
    1 ≤ required_mass_ratio dv e.isp_vac ∧
    0 < 1 + eps * (1 - required_mass_ratio dv e.isp_vac) ∧
    0 < m ∧
    m = (e.dry_mass * n + above) * (required_mass_ratio dv e.isp_vac - 1)
        / (1 + eps * (1 - required_mass_ratio dv e.isp_vac)) := by
  unfold calculate_stage_propellant at h
  dsimp only at h
  split_ifs at h with h1 h2 h3
  have hm := Except.ok.inj h
  refine ⟨not_lt.mp h1, lt_of_not_le h2, ?_, hm.symm⟩
  rw [← hm]
  exact lt_of_not_le h3

/-- Solving the stage propellant in closed form makes the stage's delta-v
with the given mass above come out exactly at the requested per-stage
delta-v (real arithmetic; the algebraic content of the Lagrange solve). -/
theorem stage_delta_v_exact (dv : ℝ) (e : Engine) (n : ℕ) (eps above m : ℝ)
    (h : calculate_stage_propellant dv e n eps above = .ok m) :
    (Stage.with_structural_ratio e n m eps).delta_v_with_payload above = dv := by
  obtain ⟨hR1, hD, hm, hmeq⟩ := calculate_stage_propellant_ok dv e n eps above m h
  set R := required_mass_ratio dv e.isp_vac with hRdef
  set D := 1 + eps * (1 - R) with hDdef
  set fixed := e.dry_mass * n + above with hfix
  have hRexp : R = Real.exp (dv / (e.isp_vac * G0)) := rfl
  have hprod : 0 < fixed * (R - 1) := by
    rcases div_pos_iff.mp (hmeq ▸ hm) with ⟨ha, _⟩ | ⟨_, hb⟩
    · exact ha
    · linarith
  have hR1' : 1 < R := by
    rcases lt_or_eq_of_le hR1 with hlt | heq
    · exact hlt
    · rw [← heq] at hprod; simp at hprod
  have hfixed_pos : 0 < fixed := by
    by_contra hc
    push_neg at hc
    nlinarith
  have hD0 : D ≠ 0 := ne_of_gt hD
  have hf0 : fixed ≠ 0 := ne_of_gt hfixed_pos
  have hdry : (Stage.with_structural_ratio e n m eps).dry_mass + above
      = fixed / D := by
    unfold Stage.with_structural_ratio Stage.dry_mass Stage.engine_mass
    dsimp only
    rw [hmeq]
    field_simp
    ring
  have hwet : (Stage.with_structural_ratio e n m eps).wet_mass + above
      = fixed * R / D := by
    unfold Stage.with_structural_ratio Stage.wet_mass Stage.dry_mass
      Stage.engine_mass
    dsimp only
    rw [hmeq]
    field_simp
    ring
  have hratio : ((Stage.with_structural_ratio e n m eps).wet_mass + above)
      / ((Stage.with_structural_ratio e n m eps).dry_mass + above) = R := by
    rw [hwet, hdry]
    field_simp
  have hx_pos : 0 < dv / (e.isp_vac * G0) := by
    have hexp : Real.exp 0 < Real.exp (dv / (e.isp_vac * G0)) := by
      rw [Real.exp_zero, ← hRexp]
      exact hR1'
    exact Real.exp_lt_exp.mp hexp
  have hcoef0 : e.isp_vac * G0 ≠ 0 := by
    intro hc
    rw [hc, div_zero] at hx_pos
    exact lt_irrefl 0 hx_pos
  unfold Stage.delta_v_with_payload
  rw [hratio]
  show (Stage.with_structural_ratio e n m eps).isp_vac * G0 * Real.log R = dv
  have hisp : (Stage.with_structural_ratio e n m eps).isp_vac = e.isp_vac := rfl
  rw [hisp, hRexp, Real.log_exp]
  field_simp

theorem solve_stage_loop_ok (dv : ℝ) (e : Engine) (sr pa mt : ℝ) (me : ℕ)
    (ifs : Bool) (fuel count n : ℕ) (prop : ℝ)
    (h : solve_stage_loop dv e sr pa mt me ifs fuel count = .ok (n, prop)) :
    calculate_stage_propellant dv e n sr pa = .ok prop := by
  induction fuel generalizing count with
  | zero => simp [solve_stage_loop] at h
  | succ k ih =>
    rw [solve_stage_loop] at h
    cases hc : calculate_stage_propellant dv e count sr pa with
    | error e' =>
      simp only [hc] at h
      exact Except.noConfusion h
    | ok propellant =>
      simp only [hc] at h
      cases hd : determine_engine_count e propellant sr pa mt me ifs with
      | error e' =>
        simp only [hd] at h
        exact Except.noConfusion h
      | ok needed =>
        simp only [hd] at h
        split_ifs at h with hn
        · have hpair := Except.ok.inj h
          have hcnt : count = n := congrArg Prod.fst hpair
          have hprop2 : propellant = prop := congrArg Prod.snd hpair
          rw [← hcnt, ← hprop2]
          exact hc
        · exact ih needed h

/-- C4.  Whenever `AnalyticalOptimizer::optimize` returns a Solution, the
two stages' delta-v contributions are exactly equal (hence within 5% of
each other) and the rocket's total delta-v is at least the requested
un-inflated target: the margin is non-negative (in exact real arithmetic
the margin is exactly 2% of the target). -/
theorem analytical_equal_split (p : Problem) (sol : Solution)
    (h : AnalyticalOptimizer.optimize p = .ok sol) :
    sol.rocket.stage_delta_v 0 = sol.rocket.stage_delta_v 1 ∧
    |sol.rocket.stage_delta_v 0 - sol.rocket.stage_delta_v 1|
      ≤ 0.05 * sol.rocket.stage_delta_v 0 ∧
    p.target_delta_v ≤ sol.rocket.total_delta_v ∧
    0 ≤ sol.margin := by
  unfold AnalyticalOptimizer.optimize at h
  cases hv : p.is_valid with
  | error e => rw [hv] at h; exact Except.noConfusion h
  | ok u =>
    obtain rfl : u = () := rfl
    rw [hv] at h
    have htarget := (is_valid_ok_pos p hv).2
    split_ifs at h with hse hsc
    unfold analytical_solve at h
    dsimp only at h
    split at h
    · exact Except.noConfusion h
    · rename_i n2 p2 heq2
      split at h
      · exact Except.noConfusion h
      · rename_i n1 p1 heq1
        split at h
        · exact Except.noConfusion h
        · rename_i uu hval
          split_ifs at h with hmarg
          have hsol := (Except.ok.inj h).symm
          set engine := p.single_engine.getD default with hengdef
          set sr := p.constraints.structural_ratio with hsrdef
          set dvps := p.target_delta_v * 1.02 / 2 with hdvps
          set stage2 := Stage.with_structural_ratio engine n2 p2 sr with hst2
          set stage1 := Stage.with_structural_ratio engine n1 p1 sr with hst1
          have hc2 := solve_stage_loop_ok _ _ _ _ _ _ _ _ _ _ _ heq2
          have hc1 := solve_stage_loop_ok _ _ _ _ _ _ _ _ _ _ _ heq1
          have hdv2 : stage2.delta_v_with_payload p.payload = dvps :=
            stage_delta_v_exact _ _ _ _ _ _ hc2
          have hdv1 : stage1.delta_v_with_payload (stage2.wet_mass + p.payload)
              = dvps := stage_delta_v_exact _ _ _ _ _ _ hc1
          have hrocket : sol.rocket = ⟨[stage1, stage2], p.payload⟩ := by
            rw [hsol]; rfl
          have hsdv0 : sol.rocket.stage_delta_v 0 = dvps := by
            rw [hrocket]
            unfold Rocket.stage_delta_v Rocket.mass_above_stage
            simp only [List.getD, List.drop, List.map, List.sum_cons,
              List.sum_nil, List.getD_cons_zero]
            rw [add_zero, add_comm]
            exact hdv1
          have hsdv1 : sol.rocket.stage_delta_v 1 = dvps := by
            rw [hrocket]
            unfold Rocket.stage_delta_v Rocket.mass_above_stage
            simp only [List.getD, List.drop, List.map, List.sum_nil,
              List.getD_cons_succ, List.getD_cons_zero]
            rw [add_zero]
            exact hdv2
          have htot : sol.rocket.total_delta_v = 1.02 * p.target_delta_v := by
            unfold Rocket.total_delta_v
            have hlen : sol.rocket.stages.length = 2 := by rw [hrocket]; rfl
            rw [hlen]
            show sol.rocket.stage_delta_v 0 + (sol.rocket.stage_delta_v 1 + 0)
              = 1.02 * p.target_delta_v
            rw [hsdv0, hsdv1, hdvps]
            ring
          have hmargin : sol.margin
              = sol.rocket.total_delta_v - p.target_delta_v := by
            rw [hsol]
            rfl
          have hdvps_pos : 0 < dvps := by rw [hdvps]; linarith
          refine ⟨by rw [hsdv0, hsdv1], ?_, ?_, ?_⟩
          · rw [hsdv0, hsdv1]
            simp only [sub_self, abs_zero]
            linarith
          · rw [htot]; linarith
          · rw [hmargin, htot]; linarith

/-! ### Evaluating the analytical optimizer on the concrete problem `pEx` -/

theorem log_two_pos : (0 : ℝ) < Real.log 2 := Real.log_pos (by norm_num)

theorem dvEx_pos : 0 < dvEx := by
  unfold dvEx
  have h := log_two_pos
  have hG := G0_pos
  nlinarith [mul_pos hG h]

theorem targetEx_pos : 0 < targetEx := by
  unfold targetEx
  have h := dvEx_pos
  positivity

theorem pEx_is_valid : pEx.is_valid = .ok () := by
  unfold Problem.is_valid
  rw [if_neg (by norm_num [pEx])]
  rw [if_neg (by simpa [pEx] using not_le.mpr targetEx_pos)]
  rw [if_neg (by simp [pEx])]
  have hsc : pEx.stage_count = some 2 := rfl
  rw [hsc]
  dsimp only
  rw [if_neg (by norm_num [pEx, constraintsEx])]
  unfold Constraints.validate
  rw [if_neg (by norm_num [pEx, constraintsEx])]
  rw [if_neg (by norm_num [pEx, constraintsEx])]
  rw [if_neg (by norm_num [pEx, constraintsEx])]
  rw [if_neg (by norm_num [pEx, constraintsEx])]
  rfl

theorem rmEx : required_mass_ratio dvEx engineEx.isp_vac = 2 := by
  unfold required_mass_ratio dvEx
  have hisp : engineEx.isp_vac = 350 := rfl
  rw [hisp]
  have h350 : (350 : ℝ) * G0 ≠ 0 := by
    have := G0_pos
    positivity
  rw [show 350 * G0 * Real.log 2 / (350 * G0) = Real.log 2 by
    field_simp]
  exact Real.exp_log (by norm_num)

theorem calcEx2 : calculate_stage_propellant dvEx engineEx 1 (1 / 2) 1000
    = .ok 2200 := by
  unfold calculate_stage_propellant
  dsimp only
  rw [rmEx]
  norm_num [engineEx]

theorem detEx2 : determine_engine_count engineEx 2200 (1 / 2) 1000 0.5 9 false
    = .ok 1 := by
  unfold determine_engine_count
  rw [show (List.range 9).map (· + 1) = [1, 2, 3, 4, 5, 6, 7, 8, 9] from rfl]
  rw [determine_engine_count_from]
  norm_num [Stage.with_structural_ratio, Stage.thrust_vac, Stage.thrust_sl,
    Stage.wet_mass, Stage.dry_mass, Stage.engine_mass, engineEx, G0]

theorem loopEx2 : solve_stage_loop dvEx engineEx (1 / 2) 1000 0.5 9 false
    (9 + 1) 1 = .ok (1, 2200) := by
  rw [solve_stage_loop]
  simp only [calcEx2, detEx2]
  norm_num

theorem calcEx1 : calculate_stage_propellant dvEx engineEx 1 (1 / 2) 4400
    = .ok 9000 := by
  unfold calculate_stage_propellant
  dsimp only
  rw [rmEx]
  norm_num [engineEx]

theorem detEx1 : determine_engine_count engineEx 9000 (1 / 2) 4400 1.2 9 true
    = .ok 1 := by
  unfold determine_engine_count
  rw [show (List.range 9).map (· + 1) = [1, 2, 3, 4, 5, 6, 7, 8, 9] from rfl]
  rw [determine_engine_count_from]
  norm_num [Stage.with_structural_ratio, Stage.thrust_vac, Stage.thrust_sl,
    Stage.wet_mass, Stage.dry_mass, Stage.engine_mass, engineEx, G0]

theorem loopEx1 : solve_stage_loop dvEx engineEx (1 / 2) 4400 1.2 9 true
    (9 + 1) 1 = .ok (1, 9000) := by
  rw [solve_stage_loop]
  simp only [calcEx1, detEx1]
  norm_num

theorem twr_ge_helper (c t m : ℝ) (hm : 0 < m) (h : c * (m * G0) ≤ t) :
    c ≤ t / (m * G0) := by
  rw [le_div_iff₀ (mul_pos hm G0_pos)]
  exact h

theorem liftoffEx_ge : 1 ≤ rocketEx.liftoff_twr := by
  have heq : rocketEx.liftoff_twr = 1000000000 / (18000 * G0) := by
    norm_num [rocketEx, Rocket.liftoff_twr, Rocket.total_mass, twr, stage1Ex,
      stage2Ex, Stage.with_structural_ratio, Stage.thrust_sl, Stage.wet_mass,
      Stage.dry_mass, Stage.engine_mass, engineEx, List.headI]
  rw [heq]
  exact twr_ge_helper _ _ _ (by norm_num) (by norm_num [G0])

theorem stageTwr0Ex : (0.5 : ℝ) ≤ rocketEx.stage_twr 0 := by
  have heq : rocketEx.stage_twr 0 = 1000000000 / (18000 * G0) := by
    norm_num [rocketEx, Rocket.stage_twr, Rocket.mass_above_stage,
      Stage.twr_vac_with_payload, twr, stage1Ex, stage2Ex,
      Stage.with_structural_ratio, Stage.thrust_vac, Stage.wet_mass,
      Stage.dry_mass, Stage.engine_mass, engineEx]
  rw [heq]
  exact twr_ge_helper _ _ _ (by norm_num) (by norm_num [G0])

theorem stageTwr1Ex : (0.5 : ℝ) ≤ rocketEx.stage_twr 1 := by
  have heq : rocketEx.stage_twr 1 = 1000000000 / (4400 * G0) := by
    norm_num [rocketEx, Rocket.stage_twr, Rocket.mass_above_stage,
      Stage.twr_vac_with_payload, twr, stage1Ex, stage2Ex,
      Stage.with_structural_ratio, Stage.thrust_vac, Stage.wet_mass,
      Stage.dry_mass, Stage.engine_mass, engineEx]
  rw [heq]
  exact twr_ge_helper _ _ _ (by norm_num) (by norm_num [G0])

theorem valEx : rocketEx.validate_twr 0.5 true = .ok () := by
  unfold Rocket.validate_twr
  rw [if_neg (fun hcontr =>
    absurd hcontr.2 (not_lt.mpr liftoffEx_ge))]
  rw [show List.range rocketEx.stages.length = [0, 1] from rfl]
  rw [check_stage_twrs, if_neg (not_lt.mpr stageTwr0Ex)]
  rw [check_stage_twrs, if_neg (not_lt.mpr stageTwr1Ex)]
  rw [check_stage_twrs]

theorem stageDv0Ex : rocketEx.stage_delta_v 0 = dvEx := by
  have hm : rocketEx.mass_above_stage 0 = 1000 + (stage2Ex.wet_mass + 0) := rfl
  have hg : rocketEx.stages.getD 0 default = stage1Ex := rfl
  unfold Rocket.stage_delta_v
  rw [hm, hg]
  unfold Stage.delta_v_with_payload
  have hr : (stage1Ex.wet_mass + (1000 + (stage2Ex.wet_mass + 0)))
      / (stage1Ex.dry_mass + (1000 + (stage2Ex.wet_mass + 0))) = 2 := by
    norm_num [stage1Ex, stage2Ex, Stage.with_structural_ratio, Stage.wet_mass,
      Stage.dry_mass, Stage.engine_mass, engineEx]
  rw [hr]
  rfl

theorem stageDv1Ex : rocketEx.stage_delta_v 1 = dvEx := by
  have hm : rocketEx.mass_above_stage 1 = 1000 + 0 := rfl
  have hg : rocketEx.stages.getD 1 default = stage2Ex := rfl
  unfold Rocket.stage_delta_v
  rw [hm, hg]
  unfold Stage.delta_v_with_payload
  have hr : (stage2Ex.wet_mass + (1000 + 0))
      / (stage2Ex.dry_mass + (1000 + 0)) = 2 := by
    norm_num [stage2Ex, Stage.with_structural_ratio, Stage.wet_mass,
      Stage.dry_mass, Stage.engine_mass, engineEx]
  rw [hr]
  rfl

theorem totEx : rocketEx.total_delta_v = 2 * dvEx := by
  unfold Rocket.total_delta_v
  rw [show List.range rocketEx.stages.length = [0, 1] from rfl]
  simp only [List.map, List.sum_cons, List.sum_nil]
  rw [stageDv0Ex, stageDv1Ex]
  ring

theorem marginEx_nonneg : 0 ≤ rocketEx.total_delta_v - targetEx := by
  rw [totEx]
  unfold targetEx
  have h := dvEx_pos
  have hle : 2 * dvEx / 1.02 ≤ 2 * dvEx := div_le_self (by linarith) (by norm_num)
  linarith

theorem target_half_Ex : targetEx * 1.02 / 2 = dvEx := by
  unfold targetEx
  field_simp

theorem analytical_solve_pEx : analytical_solve pEx engineEx = .ok solEx := by
  unfold analytical_solve
  dsimp only
  rw [show pEx.constraints = constraintsEx from rfl]
  rw [show constraintsEx.structural_ratio = 1 / 2 from rfl]
  rw [show constraintsEx.min_stage_twr = 0.5 from rfl]
  rw [show constraintsEx.min_liftoff_twr = 1.2 from rfl]
  rw [show constraintsEx.max_engines_per_stage = 9 from rfl]
  rw [show pEx.payload = (1000 : ℝ) from rfl]
  rw [show pEx.target_delta_v = targetEx from rfl]
  rw [target_half_Ex]
  simp only [loopEx2]
  rw [show (Stage.with_structural_ratio engineEx 1 2200 (1 / 2)).wet_mass
      + 1000 = 4400 from by
    norm_num [Stage.with_structural_ratio, Stage.wet_mass, Stage.dry_mass,
      Stage.engine_mass, engineEx]]
  simp only [loopEx1]
  rw [show (⟨[Stage.with_structural_ratio engineEx 1 9000 (1 / 2),
      Stage.with_structural_ratio engineEx 1 2200 (1 / 2)], (1000 : ℝ)⟩ : Rocket)
      = rocketEx from rfl]
  simp only [valEx]
  rw [if_neg (show
    ¬ (Solution.with_metadata rocketEx targetEx 1 "Analytical").margin < -1 from
    not_lt.mpr (le_trans (by norm_num : (-1 : ℝ) ≤ 0) marginEx_nonneg))]
  rfl

theorem analytical_eval : AnalyticalOptimizer.optimize pEx = .ok solEx := by
  unfold AnalyticalOptimizer.optimize
  simp only [pEx_is_valid]
  rw [if_neg (by simp [Problem.is_single_engine, pEx])]
  rw [if_neg (by simp [pEx])]
  rw [show pEx.single_engine.getD default = engineEx from rfl]
  exact analytical_solve_pEx

theorem analytical_equal_split_witness :
    solEx.rocket.stage_delta_v 0 = solEx.rocket.stage_delta_v 1 ∧
    |solEx.rocket.stage_delta_v 0 - solEx.rocket.stage_delta_v 1|
      ≤ 0.05 * solEx.rocket.stage_delta_v 0 ∧
    pEx.target_delta_v ≤ solEx.rocket.total_delta_v ∧
    0 ≤ solEx.margin :=
  analytical_equal_split pEx solEx analytical_eval

/-! ### C8 and C9: the Monte Carlo runner -/

theorem optimize_problem_pEx : optimize_problem pEx = .ok solEx := by
  unfold optimize_problem
  rw [if_pos ⟨rfl, rfl⟩]
  exact analytical_eval

/-- C8.  On a valid problem whose nominal optimization succeeds,
`MonteCarloRunner::run` with `Uncertainty::none()` returns — for every
iteration count — the single-sample result holding exactly the nominal
solution's delta-v and mass, with successes = total_runs = 1 and
failures = 0; the success probability of that result is 1. -/
theorem monte_carlo_zero_uncertainty (p : Problem) (iterations : ℕ)
    (draws : ℕ → Perturbation) (sol : Solution)
    (hv : p.is_valid = .ok ()) (hopt : optimize_problem p = .ok sol) :
    MonteCarloRunner.run Uncertainty.none draws p iterations = .ok
      { delta_v_samples := [sol.rocket.total_delta_v]
        mass_samples := [sol.rocket.total_mass]
        successes := 1
        total_runs := 1
        failures := 0
        target_delta_v := p.target_delta_v
        nominal_solution := sol } ∧
    MonteCarloResults.success_probability
      { delta_v_samples := [sol.rocket.total_delta_v]
        mass_samples := [sol.rocket.total_mass]
        successes := 1
        total_runs := 1
        failures := 0
        target_delta_v := p.target_delta_v
        nominal_solution := sol } = 1 := by
  constructor
  · unfold MonteCarloRunner.run
    simp only [hv, hopt]
    rw [if_pos (show Uncertainty.none.is_zero from ⟨rfl, rfl, rfl⟩)]
  · unfold MonteCarloResults.success_probability
    norm_num

theorem monte_carlo_zero_uncertainty_witness :
    MonteCarloRunner.run Uncertainty.none drawsC9 pEx 7 = .ok
      { delta_v_samples := [solEx.rocket.total_delta_v]
        mass_samples := [solEx.rocket.total_mass]
        successes := 1
        total_runs := 1
        failures := 0
        target_delta_v := pEx.target_delta_v
        nominal_solution := solEx } ∧
    MonteCarloResults.success_probability
      { delta_v_samples := [solEx.rocket.total_delta_v]
        mass_samples := [solEx.rocket.total_mass]
        successes := 1
        total_runs := 1
        failures := 0
        target_delta_v := pEx.target_delta_v
        nominal_solution := solEx } = 1 :=
  monte_carlo_zero_uncertainty pEx 7 drawsC9 solEx pEx_is_valid
    optimize_problem_pEx

theorem mc_samples_counts (p : Problem) (draws : ℕ → Perturbation) (t : ℝ)
    (n : ℕ) :
    (mc_samples p draws t n).dv.length + (mc_samples p draws t n).failures = n ∧
    (mc_samples p draws t n).mass.length
      = (mc_samples p draws t n).dv.length := by
  induction n with
  | zero => simp [mc_samples]
  | succ k ih =>
    obtain ⟨ih1, ih2⟩ := ih
    rw [mc_samples]
    unfold mc_step
    cases optimize_problem (perturbed_problem p (draws k)) with
    | ok s =>
      dsimp only
      constructor
      · simp only [List.length_append, List.length_cons, List.length_nil]
        omega
      · simp only [List.length_append, List.length_cons, List.length_nil]
        omega
    | error e =>
      dsimp only
      constructor
      · omega
      · exact ih2

/-- C9 (corrected).  On a valid problem with non-zero uncertainty whose
NOMINAL optimization succeeds, `MonteCarloRunner::run` returns Ok for
every iteration count: each of the N samples either records its delta-v
and mass or increments the failure counter (recorded samples plus failures
equal total_runs = N, and the two sample vectors stay in step), and every
sample's optimizer is chosen by the nominal problem's shape (analytical
when single-engine with stage count fixed at 2, brute force otherwise) —
perturbation preserves the engine-list length and the stage count.  (The
claim as stated omits the nominal success: if the nominal optimization
fails, its error aborts the run, see the counterexample.) -/
theorem monte_carlo_counts (p : Problem) (iterations : ℕ)
    (draws : ℕ → Perturbation) (u : Uncertainty) (sol : Solution)
    (hv : p.is_valid = .ok ()) (hnz : ¬ u.is_zero)
    (hopt : optimize_problem p = .ok sol) :
    ∃ res, MonteCarloRunner.run u draws p iterations = .ok res ∧
      res.total_runs = iterations ∧
      res.delta_v_samples.length + res.failures = iterations ∧
      res.mass_samples.length = res.delta_v_samples.length ∧
      res.nominal_solution = sol ∧
      (∀ pert, optimize_problem (perturbed_problem p pert)
        = if p.is_single_engine = true ∧ p.stage_count = some 2
          then AnalyticalOptimizer.optimize (perturbed_problem p pert)
          else BruteForceOptimizer.optimize BruteForceConfig.default
            (perturbed_problem p pert)) := by
  have hrun : MonteCarloRunner.run u draws p iterations = .ok
      { delta_v_samples := (mc_samples p draws p.target_delta_v iterations).dv
        mass_samples := (mc_samples p draws p.target_delta_v iterations).mass
        successes := (mc_samples p draws p.target_delta_v iterations).successes
        total_runs := iterations
        failures := (mc_samples p draws p.target_delta_v iterations).failures
        target_delta_v := p.target_delta_v
        nominal_solution := sol } := by
    unfold MonteCarloRunner.run
    simp only [hv, hopt]
    rw [if_neg hnz]
  refine ⟨_, hrun, rfl, ?_, ?_, rfl, ?_⟩
  · exact (mc_samples_counts p draws p.target_delta_v iterations).1
  · exact (mc_samples_counts p draws p.target_delta_v iterations).2
  · intro pert
    unfold optimize_problem
    have hshape : (perturbed_problem p pert).is_single_engine
        = p.is_single_engine := by
      unfold Problem.is_single_engine perturbed_problem
      simp [List.length_map]
    have hsc : (perturbed_problem p pert).stage_count = p.stage_count := rfl
    rw [hshape, hsc]

theorem log_three_pos : (0 : ℝ) < Real.log 3 := Real.log_pos (by norm_num)

theorem dvC9_pos : 0 < dvC9 := by
  unfold dvC9
  have h := log_three_pos
  have hG := G0_pos
  nlinarith [mul_pos hG h]

theorem targetC9_pos : 0 < targetC9 := by
  unfold targetC9
  have h := dvC9_pos
  positivity

theorem pC9_is_valid : pC9.is_valid = .ok () := by
  unfold Problem.is_valid
  rw [if_neg (by norm_num [pC9])]
  rw [if_neg (by simpa [pC9] using not_le.mpr targetC9_pos)]
  rw [if_neg (by simp [pC9])]
  have hsc : pC9.stage_count = some 2 := rfl
  rw [hsc]
  dsimp only
  rw [if_neg (by norm_num [pC9, constraintsC9])]
  unfold Constraints.validate
  rw [if_neg (by norm_num [pC9, constraintsC9])]
  rw [if_neg (by norm_num [pC9, constraintsC9])]
  rw [if_neg (by norm_num [pC9, constraintsC9])]
  rw [if_neg (by norm_num [pC9, constraintsC9])]
  rfl

theorem rmC9 : required_mass_ratio dvC9 engineEx.isp_vac = 3 := by
  unfold required_mass_ratio dvC9
  have hisp : engineEx.isp_vac = 350 := rfl
  rw [hisp]
  have h350 : (350 : ℝ) * G0 ≠ 0 := by
    have := G0_pos
    positivity
  rw [show 350 * G0 * Real.log 3 / (350 * G0) = Real.log 3 by field_simp]
  exact Real.exp_log (by norm_num)

theorem calcC9 : calculate_stage_propellant dvC9 engineEx 1 0.9 1000
    = .error (.infeasible "Structural ratio too high for required mass ratio") := by
  unfold calculate_stage_propellant
  dsimp only
  rw [rmC9]
  norm_num

theorem loopC9 : solve_stage_loop dvC9 engineEx 0.9 1000 0.5 9 false (9 + 1) 1
    = .error (.infeasible "Structural ratio too high for required mass ratio") := by
  rw [solve_stage_loop]
  simp only [calcC9]

theorem target_half_C9 : targetC9 * 1.02 / 2 = dvC9 := by
  unfold targetC9
  field_simp

theorem analytical_solve_pC9 : analytical_solve pC9 engineEx
    = .error (.infeasible "Structural ratio too high for required mass ratio") := by
  unfold analytical_solve
  dsimp only
  rw [show pC9.constraints = constraintsC9 from rfl]
  rw [show constraintsC9.structural_ratio = 0.9 from rfl]
  rw [show constraintsC9.min_stage_twr = 0.5 from rfl]
  rw [show constraintsC9.max_engines_per_stage = 9 from rfl]
  rw [show pC9.payload = (1000 : ℝ) from rfl]
  rw [show pC9.target_delta_v = targetC9 from rfl]
  rw [target_half_C9]
  simp only [loopC9]

theorem optimize_pC9 : AnalyticalOptimizer.optimize pC9
    = .error (.infeasible "Structural ratio too high for required mass ratio") := by
  unfold AnalyticalOptimizer.optimize
  simp only [pC9_is_valid]
  rw [if_neg (by simp [Problem.is_single_engine, pC9])]
  rw [if_neg (by simp [pC9])]
  rw [show pC9.single_engine.getD default = engineEx from rfl]
  exact analytical_solve_pC9

theorem optimize_problem_pC9 : optimize_problem pC9
    = .error (.infeasible "Structural ratio too high for required mass ratio") := by
  unfold optimize_problem
  rw [if_pos ⟨rfl, rfl⟩]
  exact optimize_pC9

/-- C9's counterexample to the claim as stated: `pC9` is a valid problem
and `uC9` a non-zero uncertainty, yet `MonteCarloRunner::run` does not
return Ok — the nominal optimization is infeasible (structural ratio 0.9
makes the closed-form denominator negative) and its error propagates out
of `run` before any sample executes. -/
theorem monte_carlo_run_cex :
    pC9.is_valid = .ok () ∧ ¬ uC9.is_zero ∧
    MonteCarloRunner.run uC9 drawsC9 pC9 5
      = .error (.infeasible "Structural ratio too high for required mass ratio") := by
  refine ⟨pC9_is_valid, ?_, ?_⟩
  · intro hcontr
    have h1 := hcontr.1
    norm_num [uC9] at h1
  · unfold MonteCarloRunner.run
    simp only [pC9_is_valid, optimize_problem_pC9]

theorem monte_carlo_counts_witness :
    ∃ res, MonteCarloRunner.run uC9 drawsC9 pEx 3 = .ok res ∧
      res.total_runs = 3 ∧
      res.delta_v_samples.length + res.failures = 3 ∧
      res.mass_samples.length = res.delta_v_samples.length ∧
      res.nominal_solution = solEx ∧
      (∀ pert, optimize_problem (perturbed_problem pEx pert)
        = if pEx.is_single_engine = true ∧ pEx.stage_count = some 2
          then AnalyticalOptimizer.optimize (perturbed_problem pEx pert)
          else BruteForceOptimizer.optimize BruteForceConfig.default
            (perturbed_problem pEx pert)) :=
  monte_carlo_counts pEx 3 drawsC9 uC9 solEx pEx_is_valid
    (fun hcontr => by
      have h1 := hcontr.1
      norm_num [uC9] at h1)
    optimize_problem_pEx

/-! ### C5: what the brute-force search guarantees about a kept rocket -/

theorem check_stage_twr_true_iff (stage : Stage) (payload_above min_twr : ℝ)
    (use_sea_level : Bool) :
    check_stage_twr stage payload_above min_twr use_sea_level = true ↔
      min_twr ≤ (if use_sea_level then stage.thrust_sl else stage.thrust_vac)
        / ((stage.wet_mass + payload_above) * G0) := by
  simp [check_stage_twr, ge_iff_le]

theorem total_mass_eq_head (r : Rocket) (s : Stage) (rest : List Stage)
    (h : r.stages = s :: rest) :
    r.total_mass = s.wet_mass + r.mass_above_stage 0 := by
  unfold Rocket.total_mass Rocket.mass_above_stage
  rw [h]
  simp only [List.map_cons, List.sum_cons, List.drop_succ_cons, List.drop_zero]
  ring

theorem try_build_stages_some (c : Constraints) (l : List (ℕ × StageSpec)) :
    ∀ (m0 : ℝ) (stages : List Stage),
    try_build_stages c l m0 = some stages →
    stages = l.map (fun is => is.2.build c) ∧
    ∀ k (hk : k < l.length),
      check_stage_twr ((l.get ⟨k, hk⟩).2.build c)
        (m0 + ((l.take k).map (fun is => (is.2.build c).wet_mass)).sum)
        (if (l.get ⟨k, hk⟩).1 = 0 then c.min_liftoff_twr else c.min_stage_twr)
        ((l.get ⟨k, hk⟩).1 == 0) = true := by
  induction l with
  | nil =>
    intro m0 stages h
    simp only [try_build_stages, Option.some.injEq] at h
    refine ⟨h.symm, ?_⟩
    intro k hk
    simp at hk
  | cons hd rest ih =>
    obtain ⟨i, spec⟩ := hd
    intro m0 stages h
    rw [try_build_stages] at h
    by_cases hchk : check_stage_twr (spec.build c) m0
        (if i = 0 then c.min_liftoff_twr else c.min_stage_twr) (i == 0) = true
    · rw [if_pos hchk] at h
      cases hrest : try_build_stages c rest (m0 + (spec.build c).wet_mass) with
      | none => rw [hrest] at h; simp at h
      | some sts =>
        rw [hrest] at h
        simp only [Option.map_some', Option.some.injEq] at h
        obtain ⟨ha, hb⟩ :=
          ih (m0 + (spec.build c).wet_mass) sts hrest
        subst h
        constructor
        · simp only [List.map_cons]
          rw [ha]
        · intro k hk
          match k with
          | 0 =>
            simpa only [List.get, List.take_zero, List.map_nil,
              List.sum_nil, add_zero] using hchk
          | Nat.succ k =>
            have hk' : k < rest.length := by
              simpa using Nat.lt_of_succ_lt_succ hk
            have hrec := hb k hk'
            simp only [List.get_cons_succ, List.take_succ_cons,
              List.map_cons, List.sum_cons]
            rw [← add_assoc]
            exact hrec
    · rw [if_neg hchk] at h
      simp at h

theorem try_build_rocket_some (specs : List StageSpec) (payload : ℝ)
    (c : Constraints) (rocket : Rocket)
    (h : try_build_rocket specs payload c = some rocket) :
    rocket.stages = specs.map (fun s => s.build c) ∧
    rocket.payload = payload ∧
    ∀ i (hi : i < specs.length),
      check_stage_twr ((specs.get ⟨i, hi⟩).build c)
        (payload + (((specs.map (fun s => s.build c)).drop (i + 1)).map
          Stage.wet_mass).sum)
        (if i = 0 then c.min_liftoff_twr else c.min_stage_twr)
        (i == 0) = true := by
  unfold try_build_rocket at h
  cases hb : try_build_stages c specs.enum.reverse payload with
  | none => rw [hb] at h; simp at h
  | some stages =>
    rw [hb] at h
    simp only [Option.map_some', Option.some.injEq] at h
    obtain ⟨hstages, hchecks⟩ :=
      try_build_stages_some c specs.enum.reverse payload stages hb
    have hn : specs.enum.reverse.length = specs.length := by simp
    have hrocket_stages : rocket.stages = specs.map (fun s => s.build c) := by
      rw [← h]
      show stages.reverse = _
      rw [hstages, ← List.map_reverse, List.reverse_reverse]
      have : specs.enum.map (fun is : ℕ × StageSpec => is.2.build c)
          = specs.map (fun s => s.build c) := by
        rw [show (fun is : ℕ × StageSpec => is.2.build c)
            = (fun s : StageSpec => s.build c) ∘ Prod.snd from rfl]
        rw [← List.map_map, List.enum_map_snd]
      rw [this]
    refine ⟨hrocket_stages, by rw [← h], ?_⟩
    intro i hi
    have hk : specs.length - 1 - i < specs.enum.reverse.length := by
      rw [hn]; omega
    have hn' : specs.enum.length - 1 - (specs.length - 1 - i)
        < specs.enum.length := by
      rw [List.enum_length]; omega
    have hget : specs.enum.reverse.get ⟨specs.length - 1 - i, hk⟩
        = (i, specs.get ⟨i, hi⟩) := by
      rw [List.get_reverse' _ _ hn']
      have hstep : specs.enum.get
          ⟨specs.enum.length - 1 - (specs.length - 1 - i), hn'⟩
          = specs.enum.get ⟨i, by rw [List.enum_length]; exact hi⟩ := by
        congr 1
        apply Fin.ext
        simp only [List.enum_length]
        omega
      rw [hstep, List.get_enum]
      rfl
    have hsum : ((specs.enum.reverse.take (specs.length - 1 - i)).map
        (fun is : ℕ × StageSpec => (is.2.build c).wet_mass)).sum
        = (((specs.map (fun s => s.build c)).drop (i + 1)).map
          Stage.wet_mass).sum := by
      rw [List.take_reverse]
      rw [List.map_reverse, List.sum_reverse]
      have hdrop : specs.enum.length - (specs.length - 1 - i) = i + 1 := by
        rw [List.enum_length]; omega
      rw [hdrop]
      have h1 : (specs.enum.drop (i + 1)).map
          (fun is : ℕ × StageSpec => (is.2.build c).wet_mass)
          = (specs.drop (i + 1)).map (fun s => (s.build c).wet_mass) := by
        rw [show (fun is : ℕ × StageSpec => (is.2.build c).wet_mass)
            = (fun s : StageSpec => (s.build c).wet_mass) ∘ Prod.snd from rfl]
        rw [← List.map_map]
        rw [List.map_drop, List.enum_map_snd]
      have h2 : ((specs.map (fun s => s.build c)).drop (i + 1)).map
          Stage.wet_mass
          = (specs.drop (i + 1)).map (fun s => (s.build c).wet_mass) := by
        rw [← List.map_drop, List.map_map]
        rfl
      rw [h1, h2]
    have := hchecks (specs.length - 1 - i) hk
    rw [hget, hsum] at this
    simpa using this

theorem try_build_rocket_feasible (p : Problem) (specs : List StageSpec)
    (rocket : Rocket) (hne : specs ≠ [])
    (hb : try_build_rocket specs p.payload p.constraints = some rocket)
    (hdv : p.target_delta_v ≤ rocket.total_delta_v) :
    bf_feasible p rocket := by
  obtain ⟨hstages, hpayload, hchecks⟩ := try_build_rocket_some _ _ _ _ hb
  have hlen : rocket.stages.length = specs.length := by rw [hstages]; simp
  refine ⟨?_, ?_, ?_, hdv⟩
  · rw [hstages]; simpa using hne
  · obtain ⟨s, t, rfl⟩ : ∃ s t, specs = s :: t := by
      cases specs with
      | nil => exact absurd rfl hne
      | cons s t => exact ⟨s, t, rfl⟩
    have hc0 := hchecks 0 (by simp)
    rw [check_stage_twr_true_iff] at hc0
    simp only [List.get, if_pos, beq_self_eq_true, if_true,
      List.map_cons, List.drop_succ_cons, List.drop_zero] at hc0
    unfold Rocket.liftoff_twr twr Rocket.total_mass
    rw [hstages, hpayload]
    simp only [List.map_cons, List.headI, List.sum_cons]
    have hden : p.payload + ((s.build p.constraints).wet_mass
        + ((t.map (fun s => s.build p.constraints)).map Stage.wet_mass).sum)
        = (s.build p.constraints).wet_mass + (p.payload
          + ((t.map (fun s => s.build p.constraints)).map
            Stage.wet_mass).sum) := by ring
    rw [hden]
    exact hc0
  · intro i h1i hilen
    have hi : i < specs.length := by rwa [hlen] at hilen
    have hc := hchecks i hi
    rw [check_stage_twr_true_iff] at hc
    have hne0 : (i == 0) = false := by
      simp only [beq_eq_false_iff_ne, ne_eq]
      omega
    rw [if_neg (by omega : ¬ i = 0)] at hc
    simp only [hne0, Bool.false_eq_true, if_false] at hc
    unfold Rocket.stage_twr Stage.twr_vac_with_payload twr
      Rocket.mass_above_stage
    rw [hstages, hpayload]
    have hgetd : (specs.map (fun s => s.build p.constraints)).getD i default
        = (specs.get ⟨i, hi⟩).build p.constraints := by
      rw [List.getD_eq_getElem _ _ (by simpa using hi)]
      simp
    rw [hgetd]
    exact hc

theorem search_step_good (p : Problem) (best : Option (Rocket × ℝ))
    (specs : List StageSpec) (hspecs : specs ≠ [])
    (hbest : bf_good p best) : bf_good p (search_step p best specs) := by
  unfold search_step
  cases hb : try_build_rocket specs p.payload p.constraints with
  | none => exact hbest
  | some rocket =>
    dsimp only
    split_ifs with hdv
    · have hfeas := try_build_rocket_feasible p specs rocket hspecs hb hdv
      cases best with
      | none => exact hfeas
      | some rm =>
        obtain ⟨r0, m0⟩ := rm
        dsimp only
        split_ifs with hm
        · exact hfeas
        · exact hbest
    · exact hbest

theorem foldl_search_good (p : Problem) (configs : List (List StageSpec))
    (init : Option (Rocket × ℝ)) (hconf : ∀ s ∈ configs, s ≠ [])
    (hinit : bf_good p init) :
    bf_good p (configs.foldl (search_step p) init) := by
  induction configs generalizing init with
  | nil => exact hinit
  | cons c rest ih =>
    rw [List.foldl_cons]
    exact ih _ (fun s hs => hconf s (List.mem_cons_of_mem _ hs))
      (search_step_good p init c (hconf c (by simp)) hinit)

theorem parallel_search_good (p : Problem) (configs : List (List StageSpec))
    (hconf : ∀ s ∈ configs, s ≠ []) :
    bf_good p (parallel_search p configs) := by
  unfold parallel_search
  exact foldl_search_good p configs none hconf trivial

theorem gen_configs_length (f u : List Engine) (props : List ℝ) (me : ℕ) :
    ∀ (rem cur : ℕ) (s : List StageSpec),
    s ∈ gen_configs f u props me cur rem → s.length = rem := by
  intro rem
  induction rem with
  | zero => intro cur s hs; simp only [gen_configs, List.mem_singleton] at hs; simp [hs]
  | succ k ih =>
    intro cur s hs
    rw [gen_configs] at hs
    simp only [List.mem_flatMap, List.mem_map] at hs
    obtain ⟨e, -, cnt, -, prop, -, tail, htail, rfl⟩ := hs
    simp [ih (cur + 1) tail htail]

theorem gen_refined_length (cfg : BruteForceConfig) (se : List Engine)
    (rr : List (ℝ × ℝ)) (me : ℕ) (f u : List Engine) :
    ∀ (rem cur : ℕ) (s : List StageSpec),
    s ∈ gen_refined cfg se rr me f u cur rem → s.length = rem := by
  intro rem
  induction rem with
  | zero => intro cur s hs; simp only [gen_refined, List.mem_singleton] at hs; simp [hs]
  | succ k ih =>
    intro cur s hs
    rw [gen_refined] at hs
    simp only [List.mem_flatMap, List.mem_map] at hs
    obtain ⟨e, -, cnt, -, prop, -, tail, htail, rfl⟩ := hs
    simp [ih (cur + 1) tail htail]

theorem is_valid_ok_stage_count_ge_one (p : Problem) (h : p.is_valid = .ok ())
    (k : ℕ) (hk : p.stage_count = some k) : 1 ≤ k := by
  unfold Problem.is_valid at h
  split_ifs at h with h1 h2 h3
  rw [hk] at h
  dsimp only at h
  by_cases hz : k = 0 ∨ p.constraints.max_stages < k
  · rw [if_pos hz] at h
    exact Except.noConfusion h
  · push_neg at hz
    omega

theorem stage_count_range_ge_one (p : Problem) (h : p.is_valid = .ok ())
    (n : ℕ) (hn : n ∈ stage_count_range p) : 1 ≤ n := by
  unfold stage_count_range at hn
  simp only [List.mem_map, List.mem_range] at hn
  obtain ⟨j, -, rfl⟩ := hn
  cases hsc : p.stage_count with
  | none => simp [hsc]
  | some k =>
    have := is_valid_ok_stage_count_ge_one p h k hsc
    simp [hsc]
    omega

theorem coarse_step_good (cfg : BruteForceConfig) (p : Problem)
    (coarse : List ℝ) (best : Option (Rocket × ℝ)) (n : ℕ) (hn : 1 ≤ n)
    (hbest : bf_good p best) :
    bf_good p (coarse_step cfg p coarse best n) := by
  unfold coarse_step
  have hsearch : bf_good p (parallel_search p
      (generate_configurations cfg p n coarse)) := by
    apply parallel_search_good
    intro s hs
    unfold generate_configurations at hs
    have := gen_configs_length _ _ coarse _ n 0 s hs
    intro hcontr
    rw [hcontr] at this
    simp at this
    omega
  cases hps : parallel_search p (generate_configurations cfg p n coarse) with
  | none => exact hbest
  | some rm =>
    rw [hps] at hsearch
    cases best with
    | none => exact hsearch
    | some rm0 =>
      dsimp only
      split_ifs with hm
      · exact hsearch
      · exact hbest

theorem foldl_coarse_good (cfg : BruteForceConfig) (p : Problem)
    (coarse : List ℝ) (ns : List ℕ) (init : Option (Rocket × ℝ))
    (hns : ∀ n ∈ ns, 1 ≤ n) (hinit : bf_good p init) :
    bf_good p (ns.foldl (coarse_step cfg p coarse) init) := by
  induction ns generalizing init with
  | nil => exact hinit
  | cons n rest ih =>
    rw [List.foldl_cons]
    exact ih _ (fun m hm => hns m (List.mem_cons_of_mem _ hm))
      (coarse_step_good cfg p coarse init n (hns n (by simp)) hinit)

theorem refine_good (cfg : BruteForceConfig) (p : Problem) (br : Rocket)
    (hne : br.stages ≠ []) :
    bf_good p (refine_around_solution cfg p br) := by
  unfold refine_around_solution
  apply parallel_search_good
  intro s hs
  unfold refined_configs at hs
  have := gen_refined_length cfg _ _ _ _ _ br.stages.length 0 s hs
  intro hcontr
  rw [hcontr] at this
  simp at this
  exact hne (List.length_eq_zero.mp this.symm)

/-- C5.  Every Solution the brute-force optimizer returns satisfies the
TWR constraints — sea-level liftoff TWR of stage 0 against the whole
rocket at least `min_liftoff_twr`, vacuum TWR of every stage above 0
against the mass it carries at least `min_stage_twr` — and its total
delta-v meets the problem's target: both search phases only keep rockets
that passed `try_build_rocket`'s per-stage checks and the delta-v
filter. -/
theorem brute_force_solution_feasible (cfg : BruteForceConfig) (p : Problem)
    (sol : Solution)
    (h : BruteForceOptimizer.optimize cfg p = .ok sol) :
    p.constraints.min_liftoff_twr ≤ sol.rocket.liftoff_twr ∧
    (∀ i, 1 ≤ i → i < sol.rocket.stages.length →
      p.constraints.min_stage_twr ≤ sol.rocket.stage_twr i) ∧
    p.target_delta_v ≤ sol.rocket.total_delta_v := by
  unfold BruteForceOptimizer.optimize at h
  cases hv : p.is_valid with
  | error e => rw [hv] at h; exact Except.noConfusion h
  | ok u =>
    rw [hv] at h
    dsimp only at h
    revert h
    generalize hb : (stage_count_range p).foldl
      (coarse_step cfg p (propellant_grid cfg.coarse_steps
        cfg.min_propellant_kg cfg.max_propellant_kg)) none = best
    have hgood : bf_good p best := hb ▸
      foldl_coarse_good cfg p _ _ _
        (fun n hn => stage_count_range_ge_one p hv n hn) trivial
    intro h
    cases best with
    | none => exact Except.noConfusion h
    | some brm =>
      obtain ⟨br, bm⟩ := brm
      have hfeas0 : bf_feasible p br := hgood
      dsimp only at h
      cases hr : refine_around_solution cfg p br with
      | none =>
        rw [hr] at h
        have hsr : sol.rocket = br := by
          rw [(Except.ok.inj h).symm]
          rfl
        rw [hsr]
        exact ⟨hfeas0.2.1, hfeas0.2.2.1, hfeas0.2.2.2⟩
      | some rrm =>
        obtain ⟨rr, rm⟩ := rrm
        rw [hr] at h
        have hrgood : bf_good p (refine_around_solution cfg p br) :=
          refine_good cfg p br hfeas0.1
        rw [hr] at hrgood
        have hrfeas : bf_feasible p rr := hrgood
        dsimp only at h
        split_ifs at h with hlt
        · have hsr : sol.rocket = rr := by
            rw [(Except.ok.inj h).symm]
            rfl
          rw [hsr]
          exact ⟨hrfeas.2.1, hrfeas.2.2.1, hrfeas.2.2.2⟩
        · have hsr : sol.rocket = br := by
            rw [(Except.ok.inj h).symm]
            rfl
          rw [hsr]
          exact ⟨hfeas0.2.1, hfeas0.2.2.1, hfeas0.2.2.2⟩

theorem p5_is_valid : p5.is_valid = .ok () := by
  unfold Problem.is_valid
  rw [if_neg (by norm_num [p5])]
  rw [if_neg (by norm_num [p5])]
  rw [if_neg (by simp [p5])]
  have hsc : p5.stage_count = some 1 := rfl
  rw [hsc]
  dsimp only
  rw [if_neg (by norm_num [p5, c5])]
  unfold Constraints.validate
  rw [if_neg (by norm_num [p5, c5])]
  rw [if_neg (by norm_num [p5, c5])]
  rw [if_neg (by norm_num [p5, c5])]
  rw [if_neg (by norm_num [p5, c5])]
  rfl

theorem grid5 : propellant_grid cfg5.coarse_steps cfg5.min_propellant_kg
    cfg5.max_propellant_kg = [100000] := by
  unfold propellant_grid
  rw [if_pos (show cfg5.coarse_steps = 1 from rfl)]
  norm_num [cfg5]

theorem range5 : stage_count_range p5 = [1] := by
  unfold stage_count_range
  have h1 : p5.stage_count = some 1 := rfl
  rw [h1]
  dsimp only
  norm_num [List.range_succ, List.range_zero]

theorem sort5 : sort_engines_by_preference cfg5 p5.available_engines
    = ([e5], [e5]) := by
  unfold sort_engines_by_preference
  rw [if_neg (by simp [cfg5])]
  have hav : p5.available_engines = [e5] := rfl
  rw [hav]
  rw [List.perm_singleton.mp (List.mergeSort_perm [e5] _),
    List.perm_singleton.mp (List.mergeSort_perm [e5] _)]

theorem gen_config5 : generate_configurations cfg5 p5 1 [100000]
    = [[⟨e5, 1, 100000⟩]] := by
  unfold generate_configurations
  rw [sort5]
  dsimp only
  have hme : p5.constraints.max_engines_per_stage = 1 := rfl
  rw [hme]
  show gen_configs [e5] [e5] [100000] 1 0 (0 + 1) = [[⟨e5, 1, 100000⟩]]
  rw [gen_configs]
  norm_num [gen_configs, List.flatMap_cons, List.flatMap_nil, List.range_succ,
    List.range_zero]

theorem check5 : check_stage_twr (StageSpec.build ⟨e5, 1, 100000⟩ p5.constraints)
    p5.payload p5.constraints.min_liftoff_twr true = true := by
  unfold check_stage_twr
  rw [decide_eq_true_eq]
  have heq : StageSpec.build ⟨e5, 1, 100000⟩ p5.constraints = stage5 := rfl
  rw [heq]
  have hval : (if (true : Bool) then stage5.thrust_sl else stage5.thrust_vac)
      / ((stage5.wet_mass + p5.payload) * G0) = 192000 * G0 / (151100 * G0) := by
    norm_num [stage5, Stage.with_structural_ratio, Stage.thrust_sl,
      Stage.wet_mass, Stage.dry_mass, Stage.engine_mass, e5, p5]
  rw [ge_iff_le, hval]
  have hmin : p5.constraints.min_liftoff_twr = 1.2 := rfl
  rw [hmin]
  exact twr_ge_helper _ _ _ (by norm_num) (by norm_num [G0])

theorem build5 : try_build_rocket [⟨e5, 1, 100000⟩] p5.payload p5.constraints
    = some rocket5 := by
  unfold try_build_rocket
  rw [show ([(⟨e5, 1, 100000⟩ : StageSpec)].enum.reverse)
      = [((0 : ℕ), (⟨e5, 1, 100000⟩ : StageSpec))] from rfl]
  rw [try_build_stages]
  rw [if_pos (show (0 : ℕ) = 0 from rfl)]
  rw [show ((0 : ℕ) == 0) = true from rfl]
  rw [check5, if_pos rfl]
  rw [try_build_stages]
  rfl

theorem dv5 : p5.target_delta_v ≤ rocket5.total_delta_v := by
  have htv : rocket5.total_delta_v = 350 * G0 * Real.log (151100 / 51100) := by
    unfold Rocket.total_delta_v
    rw [show rocket5.stages.length = 1 from rfl,
      show List.range 1 = [0] from rfl]
    simp only [List.map_cons, List.map_nil, List.sum_cons, List.sum_nil]
    unfold Rocket.stage_delta_v Rocket.mass_above_stage
      Stage.delta_v_with_payload delta_v Stage.isp_vac
    norm_num [rocket5, stage5, Stage.with_structural_ratio, Stage.wet_mass,
      Stage.dry_mass, Stage.engine_mass, e5]
  have hlog2 : (1 / 2 : ℝ) ≤ Real.log (151100 / 51100) := by
    have hlog := Real.one_sub_inv_le_log_of_pos
      (show (0 : ℝ) < 151100 / 51100 by norm_num)
    have hinv : ((151100 : ℝ) / 51100)⁻¹ = 51100 / 151100 := by norm_num
    rw [hinv] at hlog
    linarith
  rw [show p5.target_delta_v = 1 from rfl, htv,
    show G0 = 9.80665 from rfl]
  nlinarith [hlog2]

theorem psearch5 : parallel_search p5 (generate_configurations cfg5 p5 1 [100000])
    = some (rocket5, rocket5.total_mass) := by
  rw [gen_config5]
  unfold parallel_search
  rw [List.foldl_cons, List.foldl_nil]
  unfold search_step
  rw [build5]
  dsimp only
  rw [if_pos (show rocket5.total_delta_v ≥ p5.target_delta_v from dv5)]

theorem coarse5 : coarse_step cfg5 p5 [100000] none 1
    = some (rocket5, rocket5.total_mass) := by
  unfold coarse_step
  rw [psearch5]

theorem engines_to_try5 : engines_to_try e5 [e5] = [e5] := by
  unfold engines_to_try
  rw [show List.take 2 [e5] = [e5] from rfl]
  rw [List.foldl_cons, List.foldl_nil]
  rw [if_neg (fun h => h.1 rfl)]

theorem grid5f : propellant_grid cfg5.fine_steps
    (max (stage5.propellant_mass - stage5.propellant_mass * 0.3)
      cfg5.min_propellant_kg)
    (stage5.propellant_mass + stage5.propellant_mass * 0.3) = [115000] := by
  unfold propellant_grid
  rw [if_pos (show cfg5.fine_steps = 1 from rfl)]
  norm_num [stage5, Stage.with_structural_ratio, cfg5, max_def]

theorem refined5 : refined_configs cfg5 p5 rocket5 = [[⟨e5, 1, 115000⟩]] := by
  unfold refined_configs
  rw [sort5]
  dsimp only
  rw [show rocket5.stages = [stage5] from rfl]
  rw [show [stage5].length = 0 + 1 from rfl]
  rw [gen_refined]
  simp only [List.map_cons, List.map_nil, List.getD_cons_zero]
  rw [grid5f]
  rw [show stage5.engine = e5 from rfl]
  simp only [ite_self]
  rw [engines_to_try5]
  have hme : p5.constraints.max_engines_per_stage = 1 := rfl
  rw [hme]
  rw [show List.range 1 = [0] from rfl]
  simp only [gen_refined, List.map_cons, List.map_nil,
    List.flatMap_cons, List.flatMap_nil]
  norm_num

theorem check5f : check_stage_twr (StageSpec.build ⟨e5, 1, 115000⟩ p5.constraints)
    p5.payload p5.constraints.min_liftoff_twr true = false := by
  unfold check_stage_twr
  rw [decide_eq_false_iff_not]
  have heq : (if (true : Bool) then
        (StageSpec.build ⟨e5, 1, 115000⟩ p5.constraints).thrust_sl
      else (StageSpec.build ⟨e5, 1, 115000⟩ p5.constraints).thrust_vac)
      / (((StageSpec.build ⟨e5, 1, 115000⟩ p5.constraints).wet_mass + p5.payload)
        * G0) = 192000 * G0 / (173600 * G0) := by
    norm_num [StageSpec.build, Stage.with_structural_ratio, Stage.thrust_sl,
      Stage.wet_mass, Stage.dry_mass, Stage.engine_mass, e5, p5, c5]
  rw [ge_iff_le, heq]
  have hmin : p5.constraints.min_liftoff_twr = 1.2 := rfl
  rw [hmin, not_le]
  rw [div_lt_iff₀ (mul_pos (by norm_num) G0_pos)]
  nlinarith [G0_pos]

theorem build5f : try_build_rocket [⟨e5, 1, 115000⟩] p5.payload p5.constraints
    = none := by
  unfold try_build_rocket
  rw [show ([(⟨e5, 1, 115000⟩ : StageSpec)].enum.reverse)
      = [((0 : ℕ), (⟨e5, 1, 115000⟩ : StageSpec))] from rfl]
  rw [try_build_stages]
  rw [if_pos (show (0 : ℕ) = 0 from rfl)]
  rw [show ((0 : ℕ) == 0) = true from rfl]
  rw [check5f]
  rfl

theorem refine5 : refine_around_solution cfg5 p5 rocket5 = none := by
  unfold refine_around_solution
  rw [refined5]
  unfold parallel_search
  rw [List.foldl_cons, List.foldl_nil]
  unfold search_step
  rw [build5f]

theorem optimize5 : BruteForceOptimizer.optimize cfg5 p5 = .ok sol5 := by
  unfold BruteForceOptimizer.optimize
  rw [p5_is_valid]
  dsimp only
  rw [grid5, range5]
  rw [List.foldl_cons, List.foldl_nil]
  rw [coarse5]
  dsimp only
  rw [refine5]
  dsimp only
  unfold brute_force_iterations
  dsimp only
  rw [refined5]
  rfl

theorem brute_force_solution_feasible_witness :
    BruteForceOptimizer.optimize cfg5 p5 = .ok sol5 ∧
    (p5.constraints.min_liftoff_twr ≤ sol5.rocket.liftoff_twr ∧
      (∀ i, 1 ≤ i → i < sol5.rocket.stages.length →
        p5.constraints.min_stage_twr ≤ sol5.rocket.stage_twr i) ∧
      p5.target_delta_v ≤ sol5.rocket.total_delta_v) :=
  ⟨optimize5, brute_force_solution_feasible cfg5 p5 sol5 optimize5⟩

/-- C1 (corrected).  `AnalyticalOptimizer::optimize` returns an
`Unsupported` error iff the problem passes validation and either the
candidate engine list does not have exactly one engine or the stage count
with its default applied — an unset stage count defaults to 2 via
`unwrap_or(2)` — differs from 2.  (Contrary to the original claim, a
problem whose stage count is `None` is accepted, and an invalid problem —
for example one with an empty engine list — is reported as
`InvalidProblem`, not `Unsupported`.) -/
theorem analytical_unsupported_iff (p : Problem) :
    (∃ reason, AnalyticalOptimizer.optimize p = .error (.unsupported reason)) ↔
      p.is_valid = .ok () ∧
        (p.available_engines.length ≠ 1 ∨ p.stage_count.getD 2 ≠ 2) := by
  unfold AnalyticalOptimizer.optimize
  cases hv : p.is_valid with
  | error e =>
    simp only [hv]
    constructor
    · rintro ⟨reason, hcontr⟩; exact absurd hcontr (by simp)
    · rintro ⟨hcontr, -⟩; exact absurd hcontr (by simp)
  | ok u =>
    obtain rfl : u = () := rfl
    simp only [hv]
    by_cases hse : p.is_single_engine = true
    · have hlen : p.available_engines.length = 1 := by
        simpa [Problem.is_single_engine] using hse
      rw [if_neg (by simp [hse])]
      by_cases hsc : p.stage_count.getD 2 = 2
      · rw [if_neg (by simp [hsc])]
        constructor
        · rintro ⟨reason, hcontr⟩
          exact absurd hcontr (analytical_solve_not_unsupported p _ reason)
        · rintro ⟨-, hbad | hbad⟩
          · exact absurd hlen hbad
          · exact absurd hsc hbad
      · rw [if_pos (by simpa using hsc)]
        exact ⟨fun _ => ⟨by simp [hv], Or.inr hsc⟩, fun _ => ⟨_, rfl⟩⟩
    · rw [if_pos (by simpa using hse)]
      have hlen : p.available_engines.length ≠ 1 := by
        simpa [Problem.is_single_engine] using hse
      exact ⟨fun _ => ⟨by simp [hv], Or.inl hlen⟩, fun _ => ⟨_, rfl⟩⟩

theorem pC1none_is_valid : pC1none.is_valid = .ok () := by
  unfold Problem.is_valid pC1none Constraints.validate Constraints.default
  norm_num [Except.mapError]

/-- C1's counterexample to the claim as stated: the valid single-engine
problem `pC1none` has no fixed stage count (`None`), which the claim says
is rejected as `Unsupported`, yet the optimizer does not return
`Unsupported` on it (the count defaults to 2); and the problem
`pC1noeng` has an engine list without exactly one engine, which the claim
says yields `Unsupported`, yet the optimizer reports `InvalidProblem`. -/
theorem analytical_unsupported_cex :
    (pC1none.stage_count = Option.none ∧
      pC1none.available_engines.length = 1 ∧
      ¬ ∃ reason, AnalyticalOptimizer.optimize pC1none
          = .error (.unsupported reason)) ∧
    (pC1noeng.available_engines.length ≠ 1 ∧
      AnalyticalOptimizer.optimize pC1noeng
        = .error (.invalidProblem .noEngines)) := by
  constructor
  · refine ⟨rfl, rfl, ?_⟩
    rw [analytical_unsupported_iff]
    rintro ⟨-, hbad | hbad⟩
    · exact hbad rfl
    · exact hbad rfl
  · refine ⟨by simp [pC1noeng], ?_⟩
    unfold AnalyticalOptimizer.optimize
    have : pC1noeng.is_valid = .error .noEngines := by
      unfold Problem.is_valid pC1noeng
      norm_num
    rw [this]

theorem delta_v_with_payload_strict_anti_witness :
    stageC6w.delta_v_with_payload 0
      = delta_v stageC6w.isp_vac
        ((stageC6w.wet_mass + 0) / (stageC6w.dry_mass + 0)) ∧
    stageC6w.delta_v_with_payload 1 < stageC6w.delta_v_with_payload 0 :=
  delta_v_with_payload_strict_anti stageC6w 0 1
    (by norm_num [stageC6w, Stage.dry_mass, Stage.engine_mass])
    (by norm_num [stageC6w])
    (by norm_num [stageC6w, Stage.isp_vac])
    le_rfl (by norm_num)

end Tsi
